import Mathlib

/-!
# Agent policy dumper (`internal/dump/agentpolicies.go`)

A shallow embedding of the Go type `AgentPoliciesDumper` and of its three export
operations `DumpAgentPolicy`, `DumpAll` and `DumpAgentPoliciesFileteredByPackage`.

* The kibana client, the write routine `dumpInstalledObject`, `filepath.Join` and the
  syntax check of `encoding/json` live outside the file; they are fields of `Env`.
  The client and the write routine may be stateful: they thread a world of type `σ`.
* Every call of a collaborator is appended to a log (`Run.calls`), so that the number,
  the order and the arguments of the calls can be stated.
* `json.Unmarshal` into the two local variables `policyName` and `policyPackages` is
  modelled on syntax trees, with the destination passed in and returned: Go declares both
  variables outside the `for` loop and `Unmarshal` only assigns what the document mentions.
* A nil pointer dereference and an index out of range are the outcome `panicked`.
-/

namespace Dump

/-! ## Values -/

/-- Bytes of one JSON document (`json.RawMessage`). -/
abbrev RawMessage := String

/-- Go `error` values: either made outside this file (only the text is known), or made
here by `fmt.Errorf` with the verb `%w`, which keeps the wrapped error. -/
inductive GoError where
  | external (text : String)
  | wrapped (text : String) (cause : GoError)
deriving DecidableEq, Repr

/-- Method `Error()`. -/
def GoError.Error : GoError → String
  | .external t => t
  | .wrapped t _ => t

/-- Method `Unwrap()` of an error made by `fmt.Errorf` with `%w`: the wrapped error.
Nothing is known of the chain of an error made elsewhere; the model answers `none`. -/
def GoError.Unwrap : GoError → Option GoError
  | .external _ => none
  | .wrapped _ c => some c

/-- Call `fmt.Errorf(pre + "%w", err)`: the text is `pre` followed by the text of `err`. -/
def Errorf (pre : String) (err : GoError) : GoError :=
  .wrapped (pre ++ err.Error) err

/-- Syntax tree of a JSON text. Object members keep their order and their duplicates. -/
inductive JSON where
  | null
  | bool (b : Bool)
  | number (literal : String)
  | string (s : String)
  | array (elems : List JSON)
  | object (members : List (String × JSON))

/-- Word that `encoding/json` uses for a value in an `UnmarshalTypeError`. -/
def JSON.kind : JSON → String
  | .null => "null"
  | .bool _ => "bool"
  | .number _ => "number"
  | .string _ => "string"
  | .array _ => "array"
  | .object _ => "object"

/-- Constant `AgentPoliciesDumpDir`. -/
def AgentPoliciesDumpDir : String := "agent_policies"

/-- Type `AgentPolicy`. -/
structure AgentPolicy where
  name : String
  raw : RawMessage
deriving DecidableEq, Repr

/-- Method `Name()`. -/
def AgentPolicy.Name (p : AgentPolicy) : String := p.name

/-- Method `JSON()`. -/
def AgentPolicy.JSON (p : AgentPolicy) : RawMessage := p.raw

/-- Type `AgentPoliciesDumper`; the client is part of `Env`. A nil `name` is `none`, a nil
slice `policies` is the empty list. -/
structure AgentPoliciesDumper where
  name : Option String
  policies : List AgentPolicy
deriving DecidableEq, Repr

/-- Constructor `NewAgentPoliciesDumper`. -/
def NewAgentPoliciesDumper (agentPolicy : Option String) : AgentPoliciesDumper :=
  match agentPolicy with
  | some n => { name := some n, policies := [] }
  | none => { name := none, policies := [] }

/-! ## Collaborators and the call log -/

/-- One call of a collaborator, with its arguments. -/
inductive Call where
  | GetRawPolicy (name : String)
  | ListRawPolicy
  | dumpInstalledObject (dir : String) (policy : AgentPolicy)
deriving DecidableEq, Repr

/-- What the file calls and does not define. `GetRawPolicy` and `ListRawPolicy` are the
methods of `kibana.Client`, `dumpInstalledObject` is the write routine of the package
(`none` is a nil error), `Join` is `filepath.Join` at two arguments, `checkValid` is the
scanner of `encoding/json` (the syntax tree of a valid text, a `SyntaxError` otherwise) and
`typeError value field` is the `UnmarshalTypeError` for a JSON value of kind `value` met
at the Go field `field`. -/
structure Env (σ : Type) where
  GetRawPolicy : String → σ → Except GoError RawMessage × σ
  ListRawPolicy : σ → Except GoError (List RawMessage) × σ
  dumpInstalledObject : String → AgentPolicy → σ → Option GoError × σ
  Join : String → String → String
  checkValid : RawMessage → Except GoError JSON
  typeError : String → String → GoError

/-- State of the outside world together with the log of the calls made so far. -/
structure Run (σ : Type) where
  world : σ
  calls : List Call

/-- What a method leaves behind when it returns: the returned values, the dumper and the
run. -/
structure Ret (σ α : Type) where
  val : α
  d : AgentPoliciesDumper
  run : Run σ

/-- Outcome of a method that may panic. -/
inductive Outcome (σ α : Type) where
  | panicked
  | returned (r : Ret σ α)

/-! ## `json.Unmarshal` into the structs of the file -/

/-- Case folding of one rune, as far as it can reach an ASCII letter: a lower case ASCII
letter goes to upper case, the Kelvin sign U+212A goes to `K` and the long s U+017F goes
to `S`; every other rune is left alone (no other rune folds to an ASCII letter). -/
def foldRune (c : Char) : Char :=
  if 97 ≤ c.toNat ∧ c.toNat ≤ 122 then Char.ofNat (c.toNat - 32)
  else if c.toNat = 0x212A then 'K'
  else if c.toNat = 0x17F then 'S'
  else c

/-- Folded form of an object key. -/
def foldName (s : String) : String := String.mk (s.data.map foldRune)

/-- Whether the object key `key` selects the struct field tagged `field`: an exact match,
or else a match of the folded names (the tags of one struct have distinct folded names). -/
def nameMatches (field key : String) : Bool :=
  key == field || foldName key == foldName field

/-- Decoding one JSON value into a Go `string`: a JSON string is stored, `null` leaves the
destination as it is, anything else is a type error. -/
def storeString {σ : Type} (env : Env σ) (field : String) (v : JSON) (cur : String) :
    Except GoError String :=
  match v with
  | .null => .ok cur
  | .string s => .ok s
  | .bool b => .error (env.typeError (JSON.bool b).kind field)
  | .number n => .error (env.typeError (JSON.number n).kind field)
  | .array a => .error (env.typeError (JSON.array a).kind field)
  | .object o => .error (env.typeError (JSON.object o).kind field)

/-- Anonymous struct type of the field `Package` of `packagePolicy`. -/
structure Package where
  Name : String
  Title : String
  Version : String
deriving DecidableEq, Repr

/-- Type `packagePolicy`. -/
structure packagePolicy where
  ID : String
  Name : String
  Package : Package
deriving DecidableEq, Repr

/-- Zero value of `packagePolicy`. -/
def packagePolicy.zero : packagePolicy := ⟨"", "", ⟨"", "", ""⟩⟩

/-- One member of a JSON object decoded into a `Package` struct. -/
def storePackageMember {σ : Type} (env : Env σ) (acc : Package) (m : String × JSON) :
    Except GoError Package :=
  if nameMatches "name" m.1 then
    (storeString env "package_policies.package.name" m.2 acc.Name).map
      (fun s => { acc with Name := s })
  else if nameMatches "title" m.1 then
    (storeString env "package_policies.package.title" m.2 acc.Title).map
      (fun s => { acc with Title := s })
  else if nameMatches "version" m.1 then
    (storeString env "package_policies.package.version" m.2 acc.Version).map
      (fun s => { acc with Version := s })
  else .ok acc

/-- Decoding one JSON value into an existing `Package` struct: the members of an object
are stored one after the other, `null` has no effect, anything else is a type error. -/
def storePackage {σ : Type} (env : Env σ) (v : JSON) (cur : Package) :
    Except GoError Package :=
  match v with
  | .null => .ok cur
  | .object members => members.foldlM (storePackageMember env) cur
  | .bool b => .error (env.typeError (JSON.bool b).kind "package_policies.package")
  | .number n => .error (env.typeError (JSON.number n).kind "package_policies.package")
  | .string s => .error (env.typeError (JSON.string s).kind "package_policies.package")
  | .array a => .error (env.typeError (JSON.array a).kind "package_policies.package")

/-- One member of a JSON object decoded into a `packagePolicy` struct. -/
def storePackagePolicyMember {σ : Type} (env : Env σ) (acc : packagePolicy)
    (m : String × JSON) : Except GoError packagePolicy :=
  if nameMatches "id" m.1 then
    (storeString env "package_policies.id" m.2 acc.ID).map (fun s => { acc with ID := s })
  else if nameMatches "name" m.1 then
    (storeString env "package_policies.name" m.2 acc.Name).map
      (fun s => { acc with Name := s })
  else if nameMatches "package" m.1 then
    (storePackage env m.2 acc.Package).map (fun p => { acc with Package := p })
  else .ok acc

/-- Decoding one JSON value into an existing `packagePolicy` struct. -/
def storePackagePolicy {σ : Type} (env : Env σ) (v : JSON) (cur : packagePolicy) :
    Except GoError packagePolicy :=
  match v with
  | .null => .ok cur
  | .object members => members.foldlM (storePackagePolicyMember env) cur
  | .bool b => .error (env.typeError (JSON.bool b).kind "package_policies")
  | .number n => .error (env.typeError (JSON.number n).kind "package_policies")
  | .string s => .error (env.typeError (JSON.string s).kind "package_policies")
  | .array a => .error (env.typeError (JSON.array a).kind "package_policies")

/-- Go slice of `packagePolicy`: the elements below `len`, and the elements that earlier
decodes left in the backing array above `len` (the slots never written hold the zero
value and are not listed). The nil slice is `⟨[], []⟩`. -/
structure PackagePolicySlice where
  elems : List packagePolicy
  spare : List packagePolicy
deriving DecidableEq, Repr

/-- Elements of a JSON array decoded one after the other into the slots of a backing
array: slot `i` is decoded into whatever the backing array holds at `i`. The decoder of
`encoding/json` extends the slice with `SetLen(i + 1)`, decodes into `v.Index(i)` without
clearing it first, and cuts the slice with `SetLen` after the last element; a slot beyond
the capacity is new and holds the zero value. Returns the decoded elements and the slots
of the old backing array that lie behind them. -/
def storeElems {σ : Type} (env : Env σ) :
    List JSON → List packagePolicy → Except GoError (List packagePolicy × List packagePolicy)
  | [], backing => .ok ([], backing)
  | e :: es, backing =>
    match storePackagePolicy env e (backing.headD packagePolicy.zero) with
    | .error err => .error err
    | .ok x =>
      match storeElems env es backing.tail with
      | .error err => .error err
      | .ok (xs, rest) => .ok (x :: xs, rest)

/-- Decoding one JSON value into the slice field `PackagePolicies`: `null` sets the slice
to nil, an empty array sets it to a new empty slice, a non-empty array is decoded into
the slots of the existing backing array, anything else is a type error. -/
def storePackagePolicies {σ : Type} (env : Env σ) (v : JSON) (cur : PackagePolicySlice) :
    Except GoError PackagePolicySlice :=
  match v with
  | .null => .ok ⟨[], []⟩
  | .array [] => .ok ⟨[], []⟩
  | .array (e :: es) =>
    match storeElems env (e :: es) (cur.elems ++ cur.spare) with
    | .error err => .error err
    | .ok (xs, rest) => .ok ⟨xs, rest⟩
  | .bool b => .error (env.typeError (JSON.bool b).kind "package_policies")
  | .number n => .error (env.typeError (JSON.number n).kind "package_policies")
  | .string s => .error (env.typeError (JSON.string s).kind "package_policies")
  | .object o => .error (env.typeError (JSON.object o).kind "package_policies")

/-- Type of the local variable `policyName` of `getAllAgentPolicies`. -/
structure PolicyName where
  ID : String
deriving DecidableEq, Repr

/-- Type of the local variable `policyPackages` of `getAgentPoliciesFilteredByPackage`. -/
structure PolicyPackages where
  ID : String
  PackagePolicies : PackagePolicySlice
deriving DecidableEq, Repr

/-- One member of a JSON object decoded into the variable `policyName`. -/
def storePolicyNameMember {σ : Type} (env : Env σ) (acc : PolicyName) (m : String × JSON) :
    Except GoError PolicyName :=
  if nameMatches "id" m.1 then
    (storeString env "id" m.2 acc.ID).map (fun s => { acc with ID := s })
  else .ok acc

/-- Call `json.Unmarshal(data, &policyName)`: the text is checked first, then its value
is stored into the variable, whose earlier content is the starting point. -/
def unmarshalPolicyName {σ : Type} (env : Env σ) (data : RawMessage) (cur : PolicyName) :
    Except GoError PolicyName :=
  match env.checkValid data with
  | .error err => .error err
  | .ok .null => .ok cur
  | .ok (.object members) => members.foldlM (storePolicyNameMember env) cur
  | .ok (.bool b) => .error (env.typeError (JSON.bool b).kind "")
  | .ok (.number n) => .error (env.typeError (JSON.number n).kind "")
  | .ok (.string s) => .error (env.typeError (JSON.string s).kind "")
  | .ok (.array a) => .error (env.typeError (JSON.array a).kind "")

/-- One member of a JSON object decoded into the variable `policyPackages`. -/
def storePolicyPackagesMember {σ : Type} (env : Env σ) (acc : PolicyPackages)
    (m : String × JSON) : Except GoError PolicyPackages :=
  if nameMatches "id" m.1 then
    (storeString env "id" m.2 acc.ID).map (fun s => { acc with ID := s })
  else if nameMatches "package_policies" m.1 then
    (storePackagePolicies env m.2 acc.PackagePolicies).map
      (fun ps => { acc with PackagePolicies := ps })
  else .ok acc

/-- Call `json.Unmarshal(data, &policyPackages)`. -/
def unmarshalPolicyPackages {σ : Type} (env : Env σ) (data : RawMessage)
    (cur : PolicyPackages) : Except GoError PolicyPackages :=
  match env.checkValid data with
  | .error err => .error err
  | .ok .null => .ok cur
  | .ok (.object members) => members.foldlM (storePolicyPackagesMember env) cur
  | .ok (.bool b) => .error (env.typeError (JSON.bool b).kind "")
  | .ok (.number n) => .error (env.typeError (JSON.number n).kind "")
  | .ok (.string s) => .error (env.typeError (JSON.string s).kind "")
  | .ok (.array a) => .error (env.typeError (JSON.array a).kind "")

/-! ## The methods of `AgentPoliciesDumper` -/

/-- Expression `&d.policies[0]`: element 0 of the cache, a panic when the cache is empty. -/
def policiesAt0 {σ : Type} (d : AgentPoliciesDumper) (r : Run σ) :
    Outcome σ (Except GoError AgentPolicy) :=
  match d.policies with
  | [] => .panicked
  | p :: _ => .returned ⟨.ok p, d, r⟩

/-- Method `getAgentPolicy`. The argument `*d.name` is evaluated before the call, so a nil
name panics before the client is reached. -/
def getAgentPolicy {σ : Type} (env : Env σ) (d : AgentPoliciesDumper) (r : Run σ) :
    Outcome σ (Except GoError AgentPolicy) :=
  if d.policies.length = 0 then
    match d.name with
    | none => .panicked
    | some name =>
      let r1 : Run σ := ⟨(env.GetRawPolicy name r.world).2, r.calls ++ [Call.GetRawPolicy name]⟩
      match (env.GetRawPolicy name r.world).1 with
      | .error err => .returned ⟨.error err, d, r1⟩
      | .ok policy => policiesAt0 { d with policies := d.policies ++ [⟨name, policy⟩] } r1
  else policiesAt0 d r

/-- Method `DumpAgentPolicy`. -/
def DumpAgentPolicy {σ : Type} (env : Env σ) (d : AgentPoliciesDumper) (r : Run σ)
    (dir : String) : Outcome σ (Option GoError) :=
  match getAgentPolicy env { d with policies := [] } r with
  | .panicked => .panicked
  | .returned ⟨.error err, d1, r1⟩ =>
    .returned ⟨some (Errorf "failed to get agent policy: " err), d1, r1⟩
  | .returned ⟨.ok agentPolicy, d1, r1⟩ =>
    let dir1 := env.Join dir AgentPoliciesDumpDir
    let r2 : Run σ := ⟨(env.dumpInstalledObject dir1 agentPolicy r1.world).2,
      r1.calls ++ [Call.dumpInstalledObject dir1 agentPolicy]⟩
    match (env.dumpInstalledObject dir1 agentPolicy r1.world).1 with
    | some err =>
      .returned ⟨some (Errorf ("failed to dump agent policy " ++ agentPolicy.Name ++ ": ") err),
        d1, r2⟩
    | none => .returned ⟨none, d1, r2⟩

/-- Loop of `getAllAgentPolicies` over the fetched documents. The variable `policyName`
is declared before the loop and handed from one iteration to the next; an error leaves the
policies appended so far in the cache. Returns the error, if any, and the cache. -/
def getAllAgentPoliciesLoop {σ : Type} (env : Env σ) :
    List RawMessage → PolicyName → List AgentPolicy → Option GoError × List AgentPolicy
  | [], _, cache => (none, cache)
  | policy :: rest, policyName, cache =>
    match unmarshalPolicyName env policy policyName with
    | .error err => (some (Errorf "failed to get Agent Policy ID: " err), cache)
    | .ok policyName1 =>
      getAllAgentPoliciesLoop env rest policyName1 (cache ++ [⟨policyName1.ID, policy⟩])

/-- Method `getAllAgentPolicies`. -/
def getAllAgentPolicies {σ : Type} (env : Env σ) (d : AgentPoliciesDumper) (r : Run σ) :
    Ret σ (Except GoError (List AgentPolicy)) :=
  if d.policies.length = 0 then
    let r1 : Run σ := ⟨(env.ListRawPolicy r.world).2, r.calls ++ [Call.ListRawPolicy]⟩
    match (env.ListRawPolicy r.world).1 with
    | .error err => ⟨.error err, d, r1⟩
    | .ok policies =>
      match getAllAgentPoliciesLoop env policies ⟨""⟩ d.policies with
      | (some err, cache) => ⟨.error err, { d with policies := cache }, r1⟩
      | (none, cache) => ⟨.ok cache, { d with policies := cache }, r1⟩
  else ⟨.ok d.policies, d, r⟩

/-- Function `getPackagesUsingAgentPolicy`. -/
def getPackagesUsingAgentPolicy (packagePolicies : List packagePolicy) : List String :=
  packagePolicies.map (fun packagePolicy => packagePolicy.Package.Name)

/-- Modelled from the spec: `common.StringSliceContains`, which is declared in the package
`internal/common` and not in this file; the spec calls the test "exact-string containment":
the policy is kept only if the package name appears among the names, by exact string
match. -/
def StringSliceContains (slice : List String) (s : String) : Bool :=
  slice.any (fun x => x == s)

/-- Loop of `getAgentPoliciesFilteredByPackage` over the fetched documents. The variable
`policyPackages` is declared before the loop and handed from one iteration to the next. -/
def getAgentPoliciesFilteredByPackageLoop {σ : Type} (env : Env σ) (packageName : String) :
    List RawMessage → PolicyPackages → List AgentPolicy → Option GoError × List AgentPolicy
  | [], _, cache => (none, cache)
  | policy :: rest, policyPackages, cache =>
    match unmarshalPolicyPackages env policy policyPackages with
    | .error err => (some (Errorf "failed to get Agent Policy ID: " err), cache)
    | .ok policyPackages1 =>
      if !StringSliceContains
          (getPackagesUsingAgentPolicy policyPackages1.PackagePolicies.elems) packageName then
        getAgentPoliciesFilteredByPackageLoop env packageName rest policyPackages1 cache
      else
        getAgentPoliciesFilteredByPackageLoop env packageName rest policyPackages1
          (cache ++ [⟨policyPackages1.ID, policy⟩])

/-- Method `getAgentPoliciesFilteredByPackage`. -/
def getAgentPoliciesFilteredByPackage {σ : Type} (env : Env σ) (d : AgentPoliciesDumper)
    (r : Run σ) (packageName : String) : Ret σ (Except GoError (List AgentPolicy)) :=
  if d.policies.length = 0 then
    let r1 : Run σ := ⟨(env.ListRawPolicy r.world).2, r.calls ++ [Call.ListRawPolicy]⟩
    match (env.ListRawPolicy r.world).1 with
    | .error err => ⟨.error err, d, r1⟩
    | .ok policies =>
      match getAgentPoliciesFilteredByPackageLoop env packageName policies ⟨"", ⟨[], []⟩⟩
          d.policies with
      | (some err, cache) => ⟨.error err, { d with policies := cache }, r1⟩
      | (none, cache) => ⟨.ok cache, { d with policies := cache }, r1⟩
  else ⟨.ok d.policies, d, r⟩

/-- Write loop shared, word for word, by `DumpAll` and
`DumpAgentPoliciesFileteredByPackage`: each policy is handed to `dumpInstalledObject`, the
first error ends the loop. Returns the error, if any, and the run. -/
def dumpEach {σ : Type} (env : Env σ) (dir : String) :
    List AgentPolicy → Run σ → Option GoError × Run σ
  | [], r => (none, r)
  | agentPolicy :: rest, r =>
    let r1 : Run σ := ⟨(env.dumpInstalledObject dir agentPolicy r.world).2,
      r.calls ++ [Call.dumpInstalledObject dir agentPolicy]⟩
    match (env.dumpInstalledObject dir agentPolicy r.world).1 with
    | some err =>
      (some (Errorf ("failed to dump agent policy " ++ agentPolicy.Name ++ ": ") err), r1)
    | none => dumpEach env dir rest r1

/-- Method `DumpAll`; the returned pair is `(count, err)`. -/
def DumpAll {σ : Type} (env : Env σ) (d : AgentPoliciesDumper) (r : Run σ) (dir : String) :
    Ret σ (Nat × Option GoError) :=
  match getAllAgentPolicies env { d with policies := [] } r with
  | ⟨.error err, d1, r1⟩ => ⟨(0, some (Errorf "failed to get agent policy: " err)), d1, r1⟩
  | ⟨.ok agentPolicies, d1, r1⟩ =>
    match dumpEach env (env.Join dir AgentPoliciesDumpDir) agentPolicies r1 with
    | (some err, r2) => ⟨(0, some err), d1, r2⟩
    | (none, r2) => ⟨(agentPolicies.length, none), d1, r2⟩

/-- Method `DumpAgentPoliciesFileteredByPackage`; the returned pair is `(count, err)`. -/
def DumpAgentPoliciesFileteredByPackage {σ : Type} (env : Env σ) (d : AgentPoliciesDumper)
    (r : Run σ) (packageName dir : String) : Ret σ (Nat × Option GoError) :=
  match getAgentPoliciesFilteredByPackage env { d with policies := [] } r packageName with
  | ⟨.error err, d1, r1⟩ => ⟨(0, some (Errorf "failed to get agent policy: " err)), d1, r1⟩
  | ⟨.ok agentPolicies, d1, r1⟩ =>
    match dumpEach env (env.Join dir AgentPoliciesDumpDir) agentPolicies r1 with
    | (some err, r2) => ⟨(0, some err), d1, r2⟩
    | (none, r2) => ⟨(agentPolicies.length, none), d1, r2⟩

/-! ## Vocabulary of the statements -/

/-- Values of the members of a JSON object that `Unmarshal` stores into the field tagged
`id`, in the order of the text. -/
def idValues (members : List (String × JSON)) : List JSON :=
  (members.filter (fun m => nameMatches "id" m.1)).map Prod.snd

/-- The document `data` is a valid JSON object with a string `id` field of value `x`:
the text is valid, its value is an object, every member stored into `id` is a string, and
`x` is the last of them (the only one when the object does not repeat the key). -/
def IsObjectWithID {σ : Type} (env : Env σ) (data : RawMessage) (x : String) : Prop :=
  ∃ members xs, env.checkValid data = .ok (.object members) ∧
    idValues members = (xs ++ [x]).map JSON.string

/-- The document `data` is a valid JSON object with no `id` field. -/
def IsObjectWithoutID {σ : Type} (env : Env σ) (data : RawMessage) : Prop :=
  ∃ members, env.checkValid data = .ok (.object members) ∧ idValues members = []

/-- Whether a JSON value can be stored into a Go `string`: a string or `null`. -/
def JSON.fitsString : JSON → Bool
  | .null => true
  | .string _ => true
  | _ => false

/-- Whether a JSON value can be stored into a Go struct: an object or `null`. -/
def JSON.fitsStruct : JSON → Bool
  | .null => true
  | .object _ => true
  | _ => false

/-- The document `data` is valid JSON of a shape that the Go types refuse: its value is
neither an object nor `null`, or it is an object with a member stored into `id` that is
neither a string nor `null`. -/
def HasWrongShape {σ : Type} (env : Env σ) (data : RawMessage) : Prop :=
  ∃ v, env.checkValid data = .ok v ∧
    (v.fitsStruct = false ∨
      ∃ members, v = .object members ∧ ∃ u ∈ idValues members, u.fitsString = false)

/-- World in which the write routine has been called on each policy of the list in turn. -/
def worldAfterWrites {σ : Type} (env : Env σ) (dir : String) : List AgentPolicy → σ → σ
  | [], w => w
  | p :: ps, w => worldAfterWrites env dir ps (env.dumpInstalledObject dir p w).2

/-- The write routine, called from the world `w` on the policies of `ps` in order, succeeds
on the policies at the indices below `i` and fails with `err` on the policy `p` at the
index `i`. -/
def FirstFailureAt {σ : Type} (env : Env σ) (dir : String) (ps : List AgentPolicy) (w : σ)
    (i : Nat) (p : AgentPolicy) (err : GoError) : Prop :=
  ps[i]? = some p ∧
  (∀ j q, j < i → ps[j]? = some q →
    (env.dumpInstalledObject dir q (worldAfterWrites env dir (ps.take j) w)).1 = none) ∧
  (env.dumpInstalledObject dir p (worldAfterWrites env dir (ps.take i) w)).1 = some err

/-- The call `c` is no call of the write routine, or one with the directory `dir`. -/
def Call.writesInto (dir : String) : Call → Prop
  | .dumpInstalledObject dir1 _ => dir1 = dir
  | _ => True

/-- Values of the members of a JSON object that `Unmarshal` stores into the field tagged
`package_policies`, in the order of the text. -/
def packagePoliciesValues (members : List (String × JSON)) : List JSON :=
  (members.filter (fun m => nameMatches "package_policies" m.1)).map Prod.snd

/-- Reading of the spec, on the syntax tree of one package policy: the entry is an object
with a member `package` that is an object with a member `name` equal to the string
`packageName`. -/
def JSON.entryHasPackage (packageName : String) : JSON → Bool
  | .object members => members.any (fun m => m.1 == "package" &&
      match m.2 with
      | .object inner => inner.any (fun n => n.1 == "name" &&
          match n.2 with
          | .string s => s == packageName
          | _ => false)
      | _ => false)
  | _ => false

/-- Reading of the spec, on the syntax tree of one document: the document is an object
with a member `package_policies` that is an array containing an entry whose package name
equals `packageName`. A document without the member does not use the package. -/
def JSON.usesPackage (packageName : String) : JSON → Bool
  | .object members => members.any (fun m => m.1 == "package_policies" &&
      match m.2 with
      | .array entries => entries.any (JSON.entryHasPackage packageName)
      | _ => false)
  | _ => false

/-- Reading of the spec, on a fetched document: it is valid JSON and uses the package. -/
def docUsesPackage {σ : Type} (env : Env σ) (packageName : String) (data : RawMessage) :
    Bool :=
  match env.checkValid data with
  | .ok v => v.usesPackage packageName
  | .error _ => false

/-! ## A concrete environment -/

/-- Document `p1` of the example of the spec: its only package is `system`. -/
def docSystem : RawMessage :=
  "\x7b\"id\":\"p1\",\"package_policies\":[\x7b\"package\":\x7b\"name\":\"system\"\x7d\x7d]\x7d"

/-- Document `p2` of the example of the spec: its only package is `nginx`. -/
def docNginx : RawMessage :=
  "\x7b\"id\":\"p2\",\"package_policies\":[\x7b\"package\":\x7b\"name\":\"nginx\"\x7d\x7d]\x7d"

/-- Document `p3`, which has an `id` and no field `package_policies`. -/
def docBare : RawMessage := "\x7b\"id\":\"p3\"\x7d"

/-- Document with a package `nginx` and no field `id`. -/
def docNoID : RawMessage :=
  "\x7b\"name\":\"web\",\"package_policies\":[\x7b\"package\":\x7b\"name\":\"nginx\"\x7d\x7d]\x7d"

/-- Document whose `id` is a number. -/
def docNumberID : RawMessage := "\x7b\"id\":7\x7d"

/-- Text that is cut short and is not valid JSON. -/
def docCut : RawMessage := "\x7b\"id\":\"p4\","

/-- Scanner of the concrete environment: the syntax trees of the documents above, a syntax
error for every other text. -/
def demoCheckValid (data : RawMessage) : Except GoError JSON :=
  if data = docSystem then
    .ok (.object [("id", .string "p1"), ("package_policies",
      .array [.object [("package", .object [("name", .string "system")])]])])
  else if data = docNginx then
    .ok (.object [("id", .string "p2"), ("package_policies",
      .array [.object [("package", .object [("name", .string "nginx")])]])])
  else if data = docBare then
    .ok (.object [("id", .string "p3")])
  else if data = docNoID then
    .ok (.object [("name", .string "web"), ("package_policies",
      .array [.object [("package", .object [("name", .string "nginx")])]])])
  else if data = docNumberID then
    .ok (.object [("id", .number "7")])
  else .error (.external "unexpected end of JSON input")

/-- Concrete environment. The world is the number of calls of the write routine made so
far; the routine fails on the call number `failAt`, counted from 0, and on no other. The
list call answers `list`, the lookup knows the policy `p1` only. -/
def demoEnv (list : Except GoError (List RawMessage)) (failAt : Option Nat) : Env Nat where
  GetRawPolicy := fun name w =>
    if name = "p1" then (.ok docSystem, w)
    else (.error (.external "could not get policy; API status code = 404"), w)
  ListRawPolicy := fun w => (list, w)
  dumpInstalledObject := fun _ _ w =>
    (if failAt = some w then some (.external "no space left on device") else none, w + 1)
  Join := fun a b => a ++ "/" ++ b
  checkValid := demoCheckValid
  typeError := fun value field =>
    .external ("json: cannot unmarshal " ++ value ++ " into Go struct field ." ++ field)

/-! # Theorems -/

section Theorems

variable {σ : Type}

/-! ## Lemmas on the write loop -/

/-- When the write routine succeeds on every policy, the write loop returns no error and
appends one call per policy, in order. -/
theorem dumpEach_of_ok (env : Env σ) (dir : String)
    (hwrite : ∀ p w, (env.dumpInstalledObject dir p w).1 = none) :
    ∀ (ps : List AgentPolicy) (r : Run σ),
      (dumpEach env dir ps r).1 = none ∧
      (dumpEach env dir ps r).2.calls = r.calls ++ ps.map (Call.dumpInstalledObject dir) := by
  intro ps
  induction ps with
  | nil => intro r; simp [dumpEach]
  | cons p ps ih =>
    intro r
    simp only [dumpEach, hwrite]
    constructor
    · exact (ih _).1
    · rw [(ih _).2]; simp

/-- The write loop appends calls of the write routine only, on an initial segment of the
policies and with the directory it was given. -/
theorem dumpEach_calls (env : Env σ) (dir : String) :
    ∀ (ps : List AgentPolicy) (r : Run σ),
      ∃ k, k ≤ ps.length ∧
        (dumpEach env dir ps r).2.calls
          = r.calls ++ (ps.take k).map (Call.dumpInstalledObject dir) := by
  intro ps
  induction ps with
  | nil => intro r; exact ⟨0, by simp [dumpEach]⟩
  | cons p ps ih =>
    intro r
    cases h : (env.dumpInstalledObject dir p r.world).1 with
    | some err => exact ⟨1, by simp [dumpEach, h]⟩
    | none =>
      obtain ⟨k, hk, hcalls⟩ := ih ⟨(env.dumpInstalledObject dir p r.world).2,
        r.calls ++ [Call.dumpInstalledObject dir p]⟩
      refine ⟨k + 1, by simpa using hk, ?_⟩
      simp only [dumpEach, h]
      rw [hcalls]; simp

/-- When the first failure of the write routine is at the index `i`, the write loop stops
there: it returns the wrapped error after the calls on the policies `0` to `i`. -/
theorem dumpEach_first_failure (env : Env σ) (dir : String) :
    ∀ (ps : List AgentPolicy) (r : Run σ) (i : Nat) (p : AgentPolicy) (err : GoError),
      FirstFailureAt env dir ps r.world i p err →
      dumpEach env dir ps r =
        (some (Errorf ("failed to dump agent policy " ++ p.Name ++ ": ") err),
          ⟨worldAfterWrites env dir (ps.take (i + 1)) r.world,
            r.calls ++ (ps.take (i + 1)).map (Call.dumpInstalledObject dir)⟩) := by
  intro ps
  induction ps with
  | nil => intro r i p err h; simp [FirstFailureAt] at h
  | cons q ps ih =>
    intro r i p err h
    obtain ⟨hp, hbefore, hfail⟩ := h
    cases i with
    | zero =>
      simp only [List.getElem?_cons_zero, Option.some.injEq] at hp
      subst hp
      simp only [List.take_zero, worldAfterWrites] at hfail
      simp [dumpEach, hfail, worldAfterWrites]
    | succ i =>
      have h0 : (env.dumpInstalledObject dir q r.world).1 = none := by
        have := hbefore 0 q (Nat.succ_pos i) (by simp)
        simpa [worldAfterWrites] using this
      have hrest : FirstFailureAt env dir ps (env.dumpInstalledObject dir q r.world).2 i p err := by
        refine ⟨by simpa using hp, ?_, by simpa [worldAfterWrites] using hfail⟩
        intro j q1 hj hq1
        have := hbefore (j + 1) q1 (Nat.succ_lt_succ hj) (by simpa using hq1)
        simpa [worldAfterWrites] using this
      have := ih ⟨(env.dumpInstalledObject dir q r.world).2,
        r.calls ++ [Call.dumpInstalledObject dir q]⟩ i p err hrest
      simp only [dumpEach, h0]
      rw [this]
      simp [worldAfterWrites]

/-! ## Lemmas on `Unmarshal` and on the two parse loops -/

/-- A fold in `Except` fails as soon as the list holds an element on which the step fails
from every accumulator. -/
theorem foldlM_error_of_mem {α β : Type} (f : β → α → Except GoError β) (a : α)
    (hf : ∀ acc, ∃ e, f acc a = .error e) :
    ∀ (l : List α), a ∈ l → ∀ cur, ∃ e, l.foldlM f cur = .error e := by
  intro l
  induction l with
  | nil => intro h; simp at h
  | cons x xs ih =>
    intro h cur
    rw [List.foldlM_cons]
    cases hx : f cur x with
    | error e => exact ⟨e, rfl⟩
    | ok b =>
      rcases List.mem_cons.mp h with rfl | hmem
      · obtain ⟨e, he⟩ := hf cur
        rw [he] at hx; cases hx
      · exact ih hmem b

/-- A value that is neither a string nor `null` is refused by a Go `string`. -/
theorem storeString_error (env : Env σ) (field : String) (u : JSON) (cur : String)
    (hu : u.fitsString = false) : ∃ e, storeString env field u cur = .error e := by
  cases u <;> simp [JSON.fitsString] at hu <;> exact ⟨_, rfl⟩

/-- Every value listed by `idValues` comes from a member whose key selects the field `id`. -/
theorem mem_idValues {members : List (String × JSON)} {u : JSON} (h : u ∈ idValues members) :
    ∃ m ∈ members, nameMatches "id" m.1 = true ∧ m.2 = u := by
  simp only [idValues, List.mem_map, List.mem_filter] at h
  obtain ⟨m, ⟨hm, hid⟩, rfl⟩ := h
  exact ⟨m, hm, hid, rfl⟩

/-- A text that is not valid JSON makes `Unmarshal` into `policyName` fail with the error
of the scanner. -/
theorem unmarshalPolicyName_syntax (env : Env σ) (data : RawMessage) (e : GoError)
    (h : env.checkValid data = .error e) (cur : PolicyName) :
    unmarshalPolicyName env data cur = .error e := by
  simp [unmarshalPolicyName, h]

/-- A text that is not valid JSON makes `Unmarshal` into `policyPackages` fail with the
error of the scanner. -/
theorem unmarshalPolicyPackages_syntax (env : Env σ) (data : RawMessage) (e : GoError)
    (h : env.checkValid data = .error e) (cur : PolicyPackages) :
    unmarshalPolicyPackages env data cur = .error e := by
  simp [unmarshalPolicyPackages, h]

/-- A document of the wrong shape makes `Unmarshal` into `policyName` fail, whatever the
variable holds. -/
theorem unmarshalPolicyName_wrongShape (env : Env σ) (data : RawMessage)
    (h : HasWrongShape env data) (cur : PolicyName) :
    ∃ e, unmarshalPolicyName env data cur = .error e := by
  obtain ⟨v, hv, hshape⟩ := h
  rcases hshape with hs | ⟨members, rfl, u, hu, hfit⟩
  · simp only [unmarshalPolicyName, hv]
    cases v <;> first | exact ⟨_, rfl⟩ | simp [JSON.fitsStruct] at hs
  · obtain ⟨m, hm, hid, rfl⟩ := mem_idValues hu
    simp only [unmarshalPolicyName, hv]
    refine foldlM_error_of_mem _ m ?_ members hm cur
    intro acc
    obtain ⟨e, he⟩ := storeString_error env "id" m.2 acc.ID hfit
    exact ⟨e, by simp [storePolicyNameMember, hid, he, Except.map]⟩

/-- A document of the wrong shape makes `Unmarshal` into `policyPackages` fail, whatever
the variable holds. -/
theorem unmarshalPolicyPackages_wrongShape (env : Env σ) (data : RawMessage)
    (h : HasWrongShape env data) (cur : PolicyPackages) :
    ∃ e, unmarshalPolicyPackages env data cur = .error e := by
  obtain ⟨v, hv, hshape⟩ := h
  rcases hshape with hs | ⟨members, rfl, u, hu, hfit⟩
  · simp only [unmarshalPolicyPackages, hv]
    cases v <;> first | exact ⟨_, rfl⟩ | simp [JSON.fitsStruct] at hs
  · obtain ⟨m, hm, hid, rfl⟩ := mem_idValues hu
    simp only [unmarshalPolicyPackages, hv]
    refine foldlM_error_of_mem _ m ?_ members hm cur
    intro acc
    obtain ⟨e, he⟩ := storeString_error env "id" m.2 acc.ID hfit
    exact ⟨e, by simp [storePolicyPackagesMember, hid, he, Except.map]⟩

/-- The loop of `getAllAgentPolicies` returns a wrapped `Unmarshal` error when the list
holds a document that cannot be unmarshalled. -/
theorem getAllAgentPoliciesLoop_error (env : Env σ) (data : RawMessage)
    (hbad : ∀ cur, ∃ e, unmarshalPolicyName env data cur = .error e) :
    ∀ (docs : List RawMessage), data ∈ docs → ∀ cur cache, ∃ e cache1,
      getAllAgentPoliciesLoop env docs cur cache
        = (some (Errorf "failed to get Agent Policy ID: " e), cache1) := by
  intro docs
  induction docs with
  | nil => intro h; simp at h
  | cons x xs ih =>
    intro h cur cache
    cases hx : unmarshalPolicyName env x cur with
    | error e => exact ⟨e, cache, by simp [getAllAgentPoliciesLoop, hx]⟩
    | ok v =>
      rcases List.mem_cons.mp h with rfl | hmem
      · obtain ⟨e, he⟩ := hbad cur
        rw [he] at hx; cases hx
      · obtain ⟨e, cache1, hloop⟩ := ih hmem v (cache ++ [⟨v.ID, x⟩])
        exact ⟨e, cache1, by simp [getAllAgentPoliciesLoop, hx, hloop]⟩

/-- The loop of `getAgentPoliciesFilteredByPackage` returns a wrapped `Unmarshal` error
when the list holds a document that cannot be unmarshalled. -/
theorem getAgentPoliciesFilteredByPackageLoop_error (env : Env σ) (packageName : String)
    (data : RawMessage)
    (hbad : ∀ cur, ∃ e, unmarshalPolicyPackages env data cur = .error e) :
    ∀ (docs : List RawMessage), data ∈ docs → ∀ cur cache, ∃ e cache1,
      getAgentPoliciesFilteredByPackageLoop env packageName docs cur cache
        = (some (Errorf "failed to get Agent Policy ID: " e), cache1) := by
  intro docs
  induction docs with
  | nil => intro h; simp at h
  | cons x xs ih =>
    intro h cur cache
    cases hx : unmarshalPolicyPackages env x cur with
    | error e => exact ⟨e, cache, by simp [getAgentPoliciesFilteredByPackageLoop, hx]⟩
    | ok v =>
      rcases List.mem_cons.mp h with rfl | hmem
      · obtain ⟨e, he⟩ := hbad cur
        rw [he] at hx; cases hx
      · by_cases hc : StringSliceContains
            (getPackagesUsingAgentPolicy v.PackagePolicies.elems) packageName = true
        · obtain ⟨e, cache1, hloop⟩ := ih hmem v (cache ++ [⟨v.ID, x⟩])
          exact ⟨e, cache1, by simp [getAgentPoliciesFilteredByPackageLoop, hx, hc, hloop]⟩
        · obtain ⟨e, cache1, hloop⟩ := ih hmem v cache
          exact ⟨e, cache1, by simp [getAgentPoliciesFilteredByPackageLoop, hx, hc, hloop]⟩

/-- Both operations fail without a write as soon as one fetched document cannot be
unmarshalled, whatever the variable holds at that point. -/
theorem dump_of_bad_document (env : Env σ) (d : AgentPoliciesDumper) (r : Run σ)
    (packageName dir : String) (docs : List RawMessage) (data : RawMessage)
    (hlist : (env.ListRawPolicy r.world).1 = .ok docs) (hmem : data ∈ docs)
    (hbad1 : ∀ cur, ∃ e, unmarshalPolicyName env data cur = .error e)
    (hbad2 : ∀ cur, ∃ e, unmarshalPolicyPackages env data cur = .error e) :
    (∃ e, (DumpAll env d r dir).val = (0, some (Errorf "failed to get agent policy: "
        (Errorf "failed to get Agent Policy ID: " e)))) ∧
    (DumpAll env d r dir).run.calls = r.calls ++ [Call.ListRawPolicy] ∧
    (∃ e, (DumpAgentPoliciesFileteredByPackage env d r packageName dir).val
        = (0, some (Errorf "failed to get agent policy: "
            (Errorf "failed to get Agent Policy ID: " e)))) ∧
    (DumpAgentPoliciesFileteredByPackage env d r packageName dir).run.calls
        = r.calls ++ [Call.ListRawPolicy] := by
  obtain ⟨e1, c1, h1⟩ := getAllAgentPoliciesLoop_error env data hbad1 docs hmem ⟨""⟩ []
  obtain ⟨e2, c2, h2⟩ := getAgentPoliciesFilteredByPackageLoop_error env packageName data hbad2
    docs hmem ⟨"", ⟨[], []⟩⟩ []
  refine ⟨⟨e1, ?_⟩, ?_, ⟨e2, ?_⟩, ?_⟩
  · simp [DumpAll, getAllAgentPolicies, hlist, h1]
  · simp [DumpAll, getAllAgentPolicies, hlist, h1]
  · simp [DumpAgentPoliciesFileteredByPackage, getAgentPoliciesFilteredByPackage, hlist, h2]
  · simp [DumpAgentPoliciesFileteredByPackage, getAgentPoliciesFilteredByPackage, hlist, h2]

/-- When the members stored into `id` are the strings `ss`, the object decodes into
`policyName` with the last of `ss` as `ID`, or with the old `ID` when `ss` is empty. -/
theorem foldlM_storePolicyName (env : Env σ) :
    ∀ (members : List (String × JSON)) (ss : List String) (cur : PolicyName),
      idValues members = ss.map JSON.string →
      members.foldlM (storePolicyNameMember env) cur = .ok ⟨ss.getLast?.getD cur.ID⟩ := by
  intro members
  induction members with
  | nil =>
    intro ss cur h
    cases ss with
    | nil => rfl
    | cons s ss => simp [idValues] at h
  | cons m ms ih =>
    intro ss cur h
    rw [List.foldlM_cons]
    by_cases hm : nameMatches "id" m.1 = true
    · cases ss with
      | nil => simp [idValues, hm] at h
      | cons s ss =>
        have h1 : m.2 = JSON.string s ∧ idValues ms = ss.map JSON.string := by
          simpa [idValues, hm] using h
        have hstep : storePolicyNameMember env cur m = .ok ⟨s⟩ := by
          simp [storePolicyNameMember, hm, h1.1, storeString, Except.map]
        rw [hstep]
        show List.foldlM (storePolicyNameMember env) ⟨s⟩ ms = _
        rw [ih ss ⟨s⟩ h1.2]
        cases ss with
        | nil => rfl
        | cons t ts => rw [List.getLast?_eq_getLast (t :: ts) (List.cons_ne_nil t ts)]; rfl
    · have h1 : idValues ms = ss.map JSON.string := by
        simpa [idValues, hm] using h
      have hstep : storePolicyNameMember env cur m = .ok cur := by
        simp [storePolicyNameMember, hm]
      rw [hstep]
      exact ih ss cur h1

/-- A JSON object with the string `id` field `x` unmarshals into `policyName` with
`ID = x`, whatever the variable held. -/
theorem unmarshalPolicyName_of_id (env : Env σ) (data : RawMessage) (x : String)
    (h : IsObjectWithID env data x) (cur : PolicyName) :
    unmarshalPolicyName env data cur = .ok ⟨x⟩ := by
  obtain ⟨members, xs, hv, hid⟩ := h
  simp only [unmarshalPolicyName, hv]
  rw [foldlM_storePolicyName env members (xs ++ [x]) cur hid]
  simp

/-- On documents that all have a string `id` field, the loop of `getAllAgentPolicies`
appends one policy per document, named by the `id` of the document. -/
theorem getAllAgentPoliciesLoop_of_ids (env : Env σ) :
    ∀ (docs : List RawMessage) (ids : List String) (cur : PolicyName) (cache : List AgentPolicy),
      List.Forall₂ (IsObjectWithID env) docs ids →
      getAllAgentPoliciesLoop env docs cur cache
        = (none, cache ++ List.zipWith AgentPolicy.mk ids docs) := by
  intro docs
  induction docs with
  | nil => intro ids cur cache h; cases h; simp [getAllAgentPoliciesLoop]
  | cons data docs ih =>
    intro ids cur cache h
    cases h with
    | cons hd htl =>
      simp only [getAllAgentPoliciesLoop, unmarshalPolicyName_of_id env data _ hd cur]
      rw [ih _ _ _ htl]
      simp

/-- Method `getAllAgentPolicies` keeps the name of the dumper. -/
theorem getAllAgentPolicies_name (env : Env σ) (d : AgentPoliciesDumper) (r : Run σ) :
    (getAllAgentPolicies env d r).d.name = d.name := by
  unfold getAllAgentPolicies
  split
  · simp only
    split
    · rfl
    · split <;> rfl
  · rfl

/-- Method `getAgentPoliciesFilteredByPackage` keeps the name of the dumper. -/
theorem getAgentPoliciesFilteredByPackage_name (env : Env σ) (d : AgentPoliciesDumper)
    (r : Run σ) (packageName : String) :
    (getAgentPoliciesFilteredByPackage env d r packageName).d.name = d.name := by
  unfold getAgentPoliciesFilteredByPackage
  split
  · simp only
    split
    · rfl
    · split <;> rfl
  · rfl

/-- Method `DumpAll` keeps the name of the dumper. -/
theorem DumpAll_name (env : Env σ) (d : AgentPoliciesDumper) (r : Run σ) (dir : String) :
    (DumpAll env d r dir).d.name = d.name := by
  have h := getAllAgentPolicies_name env { d with policies := [] } r
  unfold DumpAll
  split
  · rename_i err d1 r1 heq
    rw [heq] at h; exact h
  · rename_i ps d1 r1 heq
    rw [heq] at h
    split <;> exact h

/-- Method `DumpAgentPoliciesFileteredByPackage` keeps the name of the dumper. -/
theorem DumpAgentPoliciesFileteredByPackage_name (env : Env σ) (d : AgentPoliciesDumper)
    (r : Run σ) (packageName dir : String) :
    (DumpAgentPoliciesFileteredByPackage env d r packageName dir).d.name = d.name := by
  have h := getAgentPoliciesFilteredByPackage_name env { d with policies := [] } r packageName
  unfold DumpAgentPoliciesFileteredByPackage
  split
  · rename_i err d1 r1 heq
    rw [heq] at h; exact h
  · rename_i ps d1 r1 heq
    rw [heq] at h
    split <;> exact h

/-- Method `getAgentPolicy` keeps the name of the dumper. -/
theorem getAgentPolicy_name (env : Env σ) (d : AgentPoliciesDumper) (r : Run σ)
    (ret : Ret σ (Except GoError AgentPolicy)) (h : getAgentPolicy env d r = .returned ret) :
    ret.d.name = d.name := by
  unfold getAgentPolicy at h
  split at h
  · split at h
    · cases h
    · simp only at h
      split at h
      · cases h; rfl
      · unfold policiesAt0 at h
        split at h
        · cases h
        · cases h; rfl
  · unfold policiesAt0 at h
    split at h
    · cases h
    · cases h; rfl

/-- Method `DumpAgentPolicy` keeps the name of the dumper. -/
theorem DumpAgentPolicy_name (env : Env σ) (d : AgentPoliciesDumper) (r : Run σ)
    (dir : String) (ret : Ret σ (Option GoError))
    (h : DumpAgentPolicy env d r dir = .returned ret) : ret.d.name = d.name := by
  unfold DumpAgentPolicy at h
  split at h
  · cases h
  · rename_i err d1 r1 heq
    cases h
    exact getAgentPolicy_name env _ r _ heq
  · rename_i p d1 r1 heq
    have := getAgentPolicy_name env _ r _ heq
    simp only at h
    split at h <;> (cases h; exact this)

/-- From an empty cache `getAllAgentPolicies` makes the list call and no other call. -/
theorem getAllAgentPolicies_run (env : Env σ) (name : Option String) (r : Run σ) :
    (getAllAgentPolicies env ⟨name, []⟩ r).run
      = ⟨(env.ListRawPolicy r.world).2, r.calls ++ [Call.ListRawPolicy]⟩ := by
  unfold getAllAgentPolicies
  simp only [List.length_nil, if_true]
  split
  · rfl
  · split <;> rfl

/-- From an empty cache `getAgentPoliciesFilteredByPackage` makes the list call and no
other call. -/
theorem getAgentPoliciesFilteredByPackage_run (env : Env σ) (name : Option String)
    (r : Run σ) (packageName : String) :
    (getAgentPoliciesFilteredByPackage env ⟨name, []⟩ r packageName).run
      = ⟨(env.ListRawPolicy r.world).2, r.calls ++ [Call.ListRawPolicy]⟩ := by
  unfold getAgentPoliciesFilteredByPackage
  simp only [List.length_nil, if_true]
  split
  · rfl
  · split <;> rfl

/-- Shape of `DumpAll`, given what `getAllAgentPolicies` returned. -/
theorem DumpAll_eq (env : Env σ) (d : AgentPoliciesDumper) (r : Run σ) (dir : String) :
    DumpAll env d r dir =
      match (getAllAgentPolicies env ⟨d.name, []⟩ r).val with
      | .error err => ⟨(0, some (Errorf "failed to get agent policy: " err)),
          (getAllAgentPolicies env ⟨d.name, []⟩ r).d,
          ⟨(env.ListRawPolicy r.world).2, r.calls ++ [Call.ListRawPolicy]⟩⟩
      | .ok ps =>
        match dumpEach env (env.Join dir AgentPoliciesDumpDir) ps
            ⟨(env.ListRawPolicy r.world).2, r.calls ++ [Call.ListRawPolicy]⟩ with
        | (some err, r2) => ⟨(0, some err), (getAllAgentPolicies env ⟨d.name, []⟩ r).d, r2⟩
        | (none, r2) => ⟨(ps.length, none), (getAllAgentPolicies env ⟨d.name, []⟩ r).d, r2⟩ := by
  have hrun := getAllAgentPolicies_run env d.name r
  unfold DumpAll
  generalize getAllAgentPolicies env ⟨d.name, []⟩ r = res at hrun
  obtain ⟨val, d1, r1⟩ := res
  simp only at hrun
  subst hrun
  cases val <;> rfl

/-- Shape of `DumpAgentPoliciesFileteredByPackage`, given what
`getAgentPoliciesFilteredByPackage` returned. -/
theorem DumpAgentPoliciesFileteredByPackage_eq (env : Env σ) (d : AgentPoliciesDumper)
    (r : Run σ) (packageName dir : String) :
    DumpAgentPoliciesFileteredByPackage env d r packageName dir =
      match (getAgentPoliciesFilteredByPackage env ⟨d.name, []⟩ r packageName).val with
      | .error err => ⟨(0, some (Errorf "failed to get agent policy: " err)),
          (getAgentPoliciesFilteredByPackage env ⟨d.name, []⟩ r packageName).d,
          ⟨(env.ListRawPolicy r.world).2, r.calls ++ [Call.ListRawPolicy]⟩⟩
      | .ok ps =>
        match dumpEach env (env.Join dir AgentPoliciesDumpDir) ps
            ⟨(env.ListRawPolicy r.world).2, r.calls ++ [Call.ListRawPolicy]⟩ with
        | (some err, r2) =>
          ⟨(0, some err), (getAgentPoliciesFilteredByPackage env ⟨d.name, []⟩ r packageName).d, r2⟩
        | (none, r2) =>
          ⟨(ps.length, none),
            (getAgentPoliciesFilteredByPackage env ⟨d.name, []⟩ r packageName).d, r2⟩ := by
  have hrun := getAgentPoliciesFilteredByPackage_run env d.name r packageName
  unfold DumpAgentPoliciesFileteredByPackage
  generalize getAgentPoliciesFilteredByPackage env ⟨d.name, []⟩ r packageName = res at hrun
  obtain ⟨val, d1, r1⟩ := res
  simp only at hrun
  subst hrun
  cases val <;> rfl

/-- Calls made by the tail shared by the two counting operations. -/
theorem counting_tail_calls (env : Env σ) (dir1 : String) (r1 : Run σ)
    (val : Except GoError (List AgentPolicy)) (d1 : AgentPoliciesDumper) :
    ∃ new, (∀ c ∈ new, Call.writesInto dir1 c) ∧
      (match val with
        | .error err => (⟨(0, some (Errorf "failed to get agent policy: " err)), d1, r1⟩ :
            Ret σ (Nat × Option GoError))
        | .ok ps =>
          match dumpEach env dir1 ps r1 with
          | (some err, r2) => ⟨(0, some err), d1, r2⟩
          | (none, r2) => ⟨(ps.length, none), d1, r2⟩).run.calls = r1.calls ++ new := by
  cases val with
  | error err => exact ⟨[], by simp, by simp⟩
  | ok ps =>
    obtain ⟨k, _, hcalls⟩ := dumpEach_calls env dir1 ps r1
    refine ⟨(ps.take k).map (Call.dumpInstalledObject dir1), ?_, ?_⟩
    · intro c hc
      simp only [List.mem_map] at hc
      obtain ⟨p, _, rfl⟩ := hc
      rfl
    · simp only
      generalize dumpEach env dir1 ps r1 = res at hcalls
      obtain ⟨e, r2⟩ := res
      cases e <;> exact hcalls

/-- An object with no member for `id` leaves the variable `policyName` as it is. -/
theorem foldlM_storePolicyName_skip (env : Env σ) :
    ∀ (members : List (String × JSON)) (cur : PolicyName), idValues members = [] →
      members.foldlM (storePolicyNameMember env) cur = .ok cur := by
  intro members cur h
  have := foldlM_storePolicyName env members [] cur (by simpa using h)
  simpa using this

/-- An object with no member for `id` and none for `package_policies` leaves the variable
`policyPackages` as it is. -/
theorem foldlM_storePolicyPackages_skip (env : Env σ) :
    ∀ (members : List (String × JSON)) (cur : PolicyPackages),
      idValues members = [] → packagePoliciesValues members = [] →
      members.foldlM (storePolicyPackagesMember env) cur = .ok cur := by
  intro members
  induction members with
  | nil => intro cur _ _; rfl
  | cons m ms ih =>
    intro cur h1 h2
    have hid : nameMatches "id" m.1 = false := by
      cases hc : nameMatches "id" m.1 with
      | false => rfl
      | true => simp [idValues, List.filter_cons, hc] at h1
    have hpp : nameMatches "package_policies" m.1 = false := by
      cases hc : nameMatches "package_policies" m.1 with
      | false => rfl
      | true => simp [packagePoliciesValues, List.filter_cons, hc] at h2
    have h1tail : idValues ms = [] := by simpa [idValues, List.filter_cons, hid] using h1
    have h2tail : packagePoliciesValues ms = [] := by
      simpa [packagePoliciesValues, List.filter_cons, hpp] using h2
    rw [List.foldlM_cons]
    have hstep : storePolicyPackagesMember env cur m = .ok cur := by
      simp [storePolicyPackagesMember, hid, hpp]
    rw [hstep]
    exact ih cur h1tail h2tail

/-! ## The claims -/

/-- C1. For every list of fetched documents that are each a valid JSON object with a
string `id` field (of the values `ids`), and a write routine that always succeeds,
`DumpAll` returns the number of documents and no error; after the list call it calls the
write routine once per document, in the order of the list, on a policy whose `Name()` is
the `id` of that document and whose `JSON()` is the document itself, and it calls nothing
else. -/
theorem C1_DumpAll_writes_every_document (env : Env σ) (d : AgentPoliciesDumper) (r : Run σ)
    (dir : String) (docs : List RawMessage) (ids : List String)
    (hlist : (env.ListRawPolicy r.world).1 = .ok docs)
    (hdocs : List.Forall₂ (IsObjectWithID env) docs ids)
    (hwrite : ∀ dir1 p w, (env.dumpInstalledObject dir1 p w).1 = none) :
    (DumpAll env d r dir).val = (docs.length, none) ∧
    ∃ ps : List AgentPolicy,
      ps.length = docs.length ∧
      ps.map AgentPolicy.Name = ids ∧
      ps.map AgentPolicy.JSON = docs ∧
      (DumpAll env d r dir).run.calls
        = r.calls ++ Call.ListRawPolicy ::
            ps.map (Call.dumpInstalledObject (env.Join dir AgentPoliciesDumpDir)) := by
  have hloop := getAllAgentPoliciesLoop_of_ids env docs ids ⟨""⟩ [] hdocs
  have hlen : ids.length = docs.length := (List.Forall₂.length_eq hdocs).symm
  have hw := dumpEach_of_ok env (env.Join dir AgentPoliciesDumpDir)
    (hwrite (env.Join dir AgentPoliciesDumpDir)) (List.zipWith AgentPolicy.mk ids docs)
    ⟨(env.ListRawPolicy r.world).2, r.calls ++ [Call.ListRawPolicy]⟩
  have hval : DumpAll env d r dir
      = ⟨((List.zipWith AgentPolicy.mk ids docs).length, none),
          { d with policies := List.zipWith AgentPolicy.mk ids docs },
          (dumpEach env (env.Join dir AgentPoliciesDumpDir)
            (List.zipWith AgentPolicy.mk ids docs)
            ⟨(env.ListRawPolicy r.world).2, r.calls ++ [Call.ListRawPolicy]⟩).2⟩ := by
    simp only [DumpAll, getAllAgentPolicies, hlist, hloop, List.length_nil, if_true,
      List.nil_append]
    generalize hg : dumpEach env (env.Join dir AgentPoliciesDumpDir)
      (List.zipWith AgentPolicy.mk ids docs)
      ⟨(env.ListRawPolicy r.world).2, r.calls ++ [Call.ListRawPolicy]⟩ = res at hw
    obtain ⟨e, r2⟩ := res
    simp only at hw
    rw [hw.1]
  refine ⟨?_, List.zipWith AgentPolicy.mk ids docs, ?_, ?_, ?_, ?_⟩
  · rw [hval]; simp [hlen]
  · simp [hlen]
  · apply List.ext_getElem
    · simp [hlen]
    · intro i h1 h2; simp [AgentPolicy.Name]
  · apply List.ext_getElem
    · simp [hlen]
    · intro i h1 h2; simp [AgentPolicy.JSON]
  · rw [hval]; simp only; rw [hw.2]; simp

/-- C1, at a concrete input: the two documents of the example of the spec. -/
theorem C1_DumpAll_writes_every_document_witness :
    (DumpAll (demoEnv (.ok [docSystem, docNginx]) none) (NewAgentPoliciesDumper none)
        ⟨0, []⟩ "out").val = (2, none) ∧
    ∃ ps : List AgentPolicy,
      ps.length = 2 ∧
      ps.map AgentPolicy.Name = ["p1", "p2"] ∧
      ps.map AgentPolicy.JSON = [docSystem, docNginx] ∧
      (DumpAll (demoEnv (.ok [docSystem, docNginx]) none) (NewAgentPoliciesDumper none)
        ⟨0, []⟩ "out").run.calls
        = [] ++ Call.ListRawPolicy :: ps.map (Call.dumpInstalledObject
            ((demoEnv (.ok [docSystem, docNginx]) none).Join "out" AgentPoliciesDumpDir)) :=
  C1_DumpAll_writes_every_document (demoEnv (.ok [docSystem, docNginx]) none)
    (NewAgentPoliciesDumper none) ⟨0, []⟩ "out" [docSystem, docNginx] ["p1", "p2"] rfl
    (List.Forall₂.cons ⟨_, [], rfl, rfl⟩ (List.Forall₂.cons ⟨_, [], rfl, rfl⟩ List.Forall₂.nil))
    (fun _ _ _ => rfl)

/-- C2, the code at the failing input. Of the two fetched documents `p2` and `p3` only
`p2` has a `package_policies` array with the package `nginx`; `p3` has no field
`package_policies`. The filtered export for `nginx` nevertheless returns the count 2 and
writes both: when `p3` is unmarshalled the variable `policyPackages` still holds the
package policies of `p2`. -/
theorem C2_filter_keeps_document_without_package_policies :
    [docNginx, docBare].filter (docUsesPackage (demoEnv (.ok [docNginx, docBare]) none) "nginx")
      = [docNginx] ∧
    (DumpAgentPoliciesFileteredByPackage (demoEnv (.ok [docNginx, docBare]) none)
      (NewAgentPoliciesDumper none) ⟨0, []⟩ "nginx" "out").val = (2, none) ∧
    (DumpAgentPoliciesFileteredByPackage (demoEnv (.ok [docNginx, docBare]) none)
      (NewAgentPoliciesDumper none) ⟨0, []⟩ "nginx" "out").run.calls
      = [Call.ListRawPolicy, Call.dumpInstalledObject "out/agent_policies" ⟨"p2", docNginx⟩,
          Call.dumpInstalledObject "out/agent_policies" ⟨"p3", docBare⟩] := by
  refine ⟨by decide, by decide, by decide⟩

/-- Example of the spec: of the two documents `p1` (package `system`) and `p2` (package
`nginx`), the filtered export for `nginx` writes `p2` only and returns the count 1. -/
theorem spec_example_filter_nginx :
    (DumpAgentPoliciesFileteredByPackage (demoEnv (.ok [docSystem, docNginx]) none)
      (NewAgentPoliciesDumper none) ⟨0, []⟩ "nginx" "out").val = (1, none) ∧
    (DumpAgentPoliciesFileteredByPackage (demoEnv (.ok [docSystem, docNginx]) none)
      (NewAgentPoliciesDumper none) ⟨0, []⟩ "nginx" "out").run.calls
      = [Call.ListRawPolicy, Call.dumpInstalledObject "out/agent_policies" ⟨"p2", docNginx⟩] := by
  refine ⟨by decide, by decide⟩

/-- C3. For every fetched list in which at least one document, at any position, is not
valid JSON, `DumpAll` and `DumpAgentPoliciesFileteredByPackage` both return the count 0
and an error that wraps the error of `json.Unmarshal`, and the only call they make is the
list call: the write routine is not called, not even for the documents before the bad
one. -/
theorem C3_malformed_document_fails_without_write (env : Env σ) (d : AgentPoliciesDumper)
    (r : Run σ) (packageName dir : String) (docs : List RawMessage) (data : RawMessage)
    (e : GoError)
    (hlist : (env.ListRawPolicy r.world).1 = .ok docs) (hmem : data ∈ docs)
    (hbad : env.checkValid data = .error e) :
    (∃ e1, (DumpAll env d r dir).val = (0, some (Errorf "failed to get agent policy: "
        (Errorf "failed to get Agent Policy ID: " e1)))) ∧
    (DumpAll env d r dir).run.calls = r.calls ++ [Call.ListRawPolicy] ∧
    (∃ e2, (DumpAgentPoliciesFileteredByPackage env d r packageName dir).val
        = (0, some (Errorf "failed to get agent policy: "
            (Errorf "failed to get Agent Policy ID: " e2)))) ∧
    (DumpAgentPoliciesFileteredByPackage env d r packageName dir).run.calls
        = r.calls ++ [Call.ListRawPolicy] :=
  dump_of_bad_document env d r packageName dir docs data hlist hmem
    (fun cur => ⟨e, unmarshalPolicyName_syntax env data e hbad cur⟩)
    (fun cur => ⟨e, unmarshalPolicyPackages_syntax env data e hbad cur⟩)

/-- C3, at a concrete input: two good documents followed by a text cut short. -/
theorem C3_malformed_document_fails_without_write_witness :
    (∃ e1, (DumpAll (demoEnv (.ok [docSystem, docNginx, docCut]) none)
        (NewAgentPoliciesDumper none) ⟨0, []⟩ "out").val
        = (0, some (Errorf "failed to get agent policy: "
            (Errorf "failed to get Agent Policy ID: " e1)))) ∧
    (DumpAll (demoEnv (.ok [docSystem, docNginx, docCut]) none)
        (NewAgentPoliciesDumper none) ⟨0, []⟩ "out").run.calls = [] ++ [Call.ListRawPolicy] ∧
    (∃ e2, (DumpAgentPoliciesFileteredByPackage (demoEnv (.ok [docSystem, docNginx, docCut]) none)
        (NewAgentPoliciesDumper none) ⟨0, []⟩ "system" "out").val
        = (0, some (Errorf "failed to get agent policy: "
            (Errorf "failed to get Agent Policy ID: " e2)))) ∧
    (DumpAgentPoliciesFileteredByPackage (demoEnv (.ok [docSystem, docNginx, docCut]) none)
        (NewAgentPoliciesDumper none) ⟨0, []⟩ "system" "out").run.calls
        = [] ++ [Call.ListRawPolicy] :=
  C3_malformed_document_fails_without_write (demoEnv (.ok [docSystem, docNginx, docCut]) none)
    (NewAgentPoliciesDumper none) ⟨0, []⟩ "system" "out" [docSystem, docNginx, docCut] docCut
    (.external "unexpected end of JSON input") rfl (by decide) rfl

/-- C4. The three export operations start by emptying the cache, so what they do does not
depend on the cache they find: for every name, every two cache contents, every world and
every log, each operation has the same outcome (returned values, calls made, world and
dumper left behind) from both caches. In particular a second call on the dumper that a
first call left behind, against a world that answers as before, has the outcome of the
same call on the original dumper; for the filtered export the package of the second call
is the one that counts. -/
theorem C4_outcome_independent_of_prior_cache (env : Env σ) (name : Option String)
    (cache1 cache2 : List AgentPolicy) (r : Run σ) (packageName dir : String) :
    DumpAgentPolicy env ⟨name, cache1⟩ r dir = DumpAgentPolicy env ⟨name, cache2⟩ r dir ∧
    DumpAll env ⟨name, cache1⟩ r dir = DumpAll env ⟨name, cache2⟩ r dir ∧
    DumpAgentPoliciesFileteredByPackage env ⟨name, cache1⟩ r packageName dir
      = DumpAgentPoliciesFileteredByPackage env ⟨name, cache2⟩ r packageName dir ∧
    (∀ ret, DumpAgentPolicy env ⟨name, cache1⟩ r dir = .returned ret →
      DumpAgentPolicy env ret.d r dir = .returned ret) ∧
    DumpAll env (DumpAll env ⟨name, cache1⟩ r dir).d r dir
      = DumpAll env ⟨name, cache1⟩ r dir ∧
    (∀ firstPackage,
      DumpAgentPoliciesFileteredByPackage env
          (DumpAgentPoliciesFileteredByPackage env ⟨name, cache1⟩ r firstPackage dir).d
          r packageName dir
        = DumpAgentPoliciesFileteredByPackage env ⟨name, cache1⟩ r packageName dir) := by
  have key1 : ∀ d : AgentPoliciesDumper, d.name = name →
      DumpAgentPolicy env d r dir = DumpAgentPolicy env ⟨name, cache1⟩ r dir := by
    intro d hd; cases d; simp only at hd; subst hd; rfl
  have key2 : ∀ d : AgentPoliciesDumper, d.name = name →
      DumpAll env d r dir = DumpAll env ⟨name, cache1⟩ r dir := by
    intro d hd; cases d; simp only at hd; subst hd; rfl
  have key3 : ∀ d : AgentPoliciesDumper, d.name = name →
      DumpAgentPoliciesFileteredByPackage env d r packageName dir
        = DumpAgentPoliciesFileteredByPackage env ⟨name, cache1⟩ r packageName dir := by
    intro d hd; cases d; simp only at hd; subst hd; rfl
  refine ⟨(key1 ⟨name, cache2⟩ rfl).symm, (key2 ⟨name, cache2⟩ rfl).symm,
    (key3 ⟨name, cache2⟩ rfl).symm, ?_, ?_, ?_⟩
  · intro ret h
    rw [key1 ret.d (DumpAgentPolicy_name env _ r dir ret h), h]
  · exact key2 _ (DumpAll_name env _ r dir)
  · intro firstPackage
    exact key3 _ (DumpAgentPoliciesFileteredByPackage_name env _ r firstPackage dir)

/-- C4, at a concrete input: a successful export of the policy `p1`, made twice. -/
theorem C4_outcome_independent_of_prior_cache_witness :
    DumpAgentPolicy (demoEnv (.ok []) none) ⟨some "p1", []⟩ ⟨0, []⟩ "out"
      = .returned ⟨none, ⟨some "p1", [⟨"p1", docSystem⟩]⟩,
          ⟨1, [Call.GetRawPolicy "p1",
            Call.dumpInstalledObject "out/agent_policies" ⟨"p1", docSystem⟩]⟩⟩ ∧
    DumpAgentPolicy (demoEnv (.ok []) none) ⟨some "p1", [⟨"p1", docSystem⟩]⟩ ⟨0, []⟩ "out"
      = .returned ⟨none, ⟨some "p1", [⟨"p1", docSystem⟩]⟩,
          ⟨1, [Call.GetRawPolicy "p1",
            Call.dumpInstalledObject "out/agent_policies" ⟨"p1", docSystem⟩]⟩⟩ :=
  ⟨rfl, (C4_outcome_independent_of_prior_cache (demoEnv (.ok []) none) (some "p1") [] []
    ⟨0, []⟩ "nginx" "out").2.2.2.1 _ rfl⟩

/-- C5. For every dumper with the target name `X` (whatever its cache), when the lookup
of `X` answers a document and the write routine succeeds on it, `DumpAgentPolicy` returns
no error and makes exactly two calls: one lookup, of `X`, and then one call of the write
routine, on a policy whose `Name()` is `X` and whose `JSON()` is the fetched document. -/
theorem C5_DumpAgentPolicy_writes_the_named_policy (env : Env σ) (X : String)
    (cache : List AgentPolicy) (r : Run σ) (dir : String) (doc : RawMessage)
    (hget : (env.GetRawPolicy X r.world).1 = .ok doc)
    (hwrite : (env.dumpInstalledObject (env.Join dir AgentPoliciesDumpDir) ⟨X, doc⟩
      (env.GetRawPolicy X r.world).2).1 = none) :
    ∃ (ret : Ret σ (Option GoError)) (p : AgentPolicy),
      DumpAgentPolicy env ⟨some X, cache⟩ r dir = .returned ret ∧
      ret.val = none ∧
      p.Name = X ∧ p.JSON = doc ∧
      ret.run.calls = r.calls ++ [Call.GetRawPolicy X,
        Call.dumpInstalledObject (env.Join dir AgentPoliciesDumpDir) p] := by
  refine ⟨⟨none, ⟨some X, [⟨X, doc⟩]⟩,
    ⟨(env.dumpInstalledObject (env.Join dir AgentPoliciesDumpDir) ⟨X, doc⟩
        (env.GetRawPolicy X r.world).2).2,
      r.calls ++ [Call.GetRawPolicy X,
        Call.dumpInstalledObject (env.Join dir AgentPoliciesDumpDir) ⟨X, doc⟩]⟩⟩,
    ⟨X, doc⟩, ?_, rfl, rfl, rfl, rfl⟩
  simp [DumpAgentPolicy, getAgentPolicy, policiesAt0, hget, hwrite]

/-- C5, at a concrete input: the policy `p1` of the concrete environment. -/
theorem C5_DumpAgentPolicy_writes_the_named_policy_witness :
    ∃ (ret : Ret Nat (Option GoError)) (p : AgentPolicy),
      DumpAgentPolicy (demoEnv (.ok []) none) ⟨some "p1", []⟩ ⟨0, []⟩ "out" = .returned ret ∧
      ret.val = none ∧
      p.Name = "p1" ∧ p.JSON = docSystem ∧
      ret.run.calls = [] ++ [Call.GetRawPolicy "p1",
        Call.dumpInstalledObject ((demoEnv (.ok []) none).Join "out" AgentPoliciesDumpDir) p] :=
  C5_DumpAgentPolicy_writes_the_named_policy (demoEnv (.ok []) none) "p1" [] ⟨0, []⟩ "out"
    docSystem rfl rfl

/-- C6. When the write routine, called on the parsed policies in order, fails for the
first time on the policy `p` at the index `i`, with the error `err`, then `DumpAll` and
`DumpAgentPoliciesFileteredByPackage` return the count 0 and an error that wraps `err`
and whose text contains `p.Name()`; after the list call they have called the write
routine on the policies at the indices `0` to `i`, in order, `i + 1` times, and on no
later policy; the world is the one that these `i + 1` writes leave, nothing is undone. -/
theorem C6_first_write_failure_ends_the_loop (env : Env σ) (d : AgentPoliciesDumper)
    (r : Run σ) (packageName dir : String) (ps : List AgentPolicy) (i : Nat)
    (p : AgentPolicy) (err : GoError)
    (hfail : FirstFailureAt env (env.Join dir AgentPoliciesDumpDir) ps
      (env.ListRawPolicy r.world).2 i p err) :
    ((getAllAgentPolicies env ⟨d.name, []⟩ r).val = .ok ps →
      (DumpAll env d r dir).val
        = (0, some (Errorf ("failed to dump agent policy " ++ p.Name ++ ": ") err)) ∧
      (DumpAll env d r dir).run.calls = r.calls ++ Call.ListRawPolicy ::
        (ps.take (i + 1)).map (Call.dumpInstalledObject (env.Join dir AgentPoliciesDumpDir)) ∧
      (DumpAll env d r dir).run.world = worldAfterWrites env
        (env.Join dir AgentPoliciesDumpDir) (ps.take (i + 1)) (env.ListRawPolicy r.world).2) ∧
    ((getAgentPoliciesFilteredByPackage env ⟨d.name, []⟩ r packageName).val = .ok ps →
      (DumpAgentPoliciesFileteredByPackage env d r packageName dir).val
        = (0, some (Errorf ("failed to dump agent policy " ++ p.Name ++ ": ") err)) ∧
      (DumpAgentPoliciesFileteredByPackage env d r packageName dir).run.calls
        = r.calls ++ Call.ListRawPolicy ::
          (ps.take (i + 1)).map (Call.dumpInstalledObject (env.Join dir AgentPoliciesDumpDir)) ∧
      (DumpAgentPoliciesFileteredByPackage env d r packageName dir).run.world
        = worldAfterWrites env (env.Join dir AgentPoliciesDumpDir) (ps.take (i + 1))
            (env.ListRawPolicy r.world).2) ∧
    (ps.take (i + 1)).length = i + 1 ∧
    (Errorf ("failed to dump agent policy " ++ p.Name ++ ": ") err).Unwrap = some err ∧
    ∃ a b, (Errorf ("failed to dump agent policy " ++ p.Name ++ ": ") err).Error
      = a ++ p.Name ++ b := by
  have hloop := dumpEach_first_failure env (env.Join dir AgentPoliciesDumpDir) ps
    ⟨(env.ListRawPolicy r.world).2, r.calls ++ [Call.ListRawPolicy]⟩ i p err hfail
  have hi : i < ps.length := by
    have := hfail.1
    exact (List.getElem?_eq_some_iff.mp this).1
  refine ⟨?_, ?_, ?_, rfl, ⟨"failed to dump agent policy ", ": " ++ err.Error, ?_⟩⟩
  · intro hparse
    rw [DumpAll_eq, hparse]
    simp only [hloop]
    simp
  · intro hparse
    rw [DumpAgentPoliciesFileteredByPackage_eq, hparse]
    simp only [hloop]
    simp
  · simp [List.length_take]; omega
  · simp [Errorf, GoError.Error, String.append_assoc]

/-- C6, at a concrete input: for `DumpAll`, three policies and a write routine that fails
on its second call; for the filtered export, one policy and a routine that fails at once. -/
theorem C6_first_write_failure_ends_the_loop_witness :
    ((DumpAll (demoEnv (.ok [docSystem, docNginx, docBare]) (some 1))
        (NewAgentPoliciesDumper none) ⟨0, []⟩ "out").val
        = (0, some (Errorf "failed to dump agent policy p2: "
            (.external "no space left on device"))) ∧
      (DumpAll (demoEnv (.ok [docSystem, docNginx, docBare]) (some 1))
        (NewAgentPoliciesDumper none) ⟨0, []⟩ "out").run.calls
        = [Call.ListRawPolicy, Call.dumpInstalledObject "out/agent_policies" ⟨"p1", docSystem⟩,
            Call.dumpInstalledObject "out/agent_policies" ⟨"p2", docNginx⟩] ∧
      (DumpAll (demoEnv (.ok [docSystem, docNginx, docBare]) (some 1))
        (NewAgentPoliciesDumper none) ⟨0, []⟩ "out").run.world = 2) ∧
    ((DumpAgentPoliciesFileteredByPackage (demoEnv (.ok [docSystem, docNginx]) (some 0))
        (NewAgentPoliciesDumper none) ⟨0, []⟩ "nginx" "out").val
        = (0, some (Errorf "failed to dump agent policy p2: "
            (.external "no space left on device"))) ∧
      (DumpAgentPoliciesFileteredByPackage (demoEnv (.ok [docSystem, docNginx]) (some 0))
        (NewAgentPoliciesDumper none) ⟨0, []⟩ "nginx" "out").run.calls
        = [Call.ListRawPolicy, Call.dumpInstalledObject "out/agent_policies" ⟨"p2", docNginx⟩] ∧
      (DumpAgentPoliciesFileteredByPackage (demoEnv (.ok [docSystem, docNginx]) (some 0))
        (NewAgentPoliciesDumper none) ⟨0, []⟩ "nginx" "out").run.world = 1) :=
  ⟨(C6_first_write_failure_ends_the_loop (demoEnv (.ok [docSystem, docNginx, docBare]) (some 1))
      (NewAgentPoliciesDumper none) ⟨0, []⟩ "nginx" "out"
      [⟨"p1", docSystem⟩, ⟨"p2", docNginx⟩, ⟨"p3", docBare⟩] 1 ⟨"p2", docNginx⟩
      (.external "no space left on device")
      ⟨rfl, by
        intro j q hj hq
        have hj0 : j = 0 := by omega
        subst hj0
        rfl, rfl⟩).1 rfl,
   (C6_first_write_failure_ends_the_loop (demoEnv (.ok [docSystem, docNginx]) (some 0))
      (NewAgentPoliciesDumper none) ⟨0, []⟩ "nginx" "out"
      [⟨"p2", docNginx⟩] 0 ⟨"p2", docNginx⟩ (.external "no space left on device")
      ⟨rfl, by intro j q hj; omega, rfl⟩).2.1 rfl⟩

/-- C7. When the remote call fails with `e`, the export operation returns an error that
wraps `e` (with the count 0 for the two counting operations); the log then holds that one
remote call and nothing else: no second attempt and no call of the write routine. The
remote call is the lookup of the target name `X` for `DumpAgentPolicy`, the list call for
`DumpAll` and `DumpAgentPoliciesFileteredByPackage`. -/
theorem C7_remote_failure_is_returned_at_once (env : Env σ) (d : AgentPoliciesDumper)
    (r : Run σ) (packageName dir : String) (e : GoError) :
    (∀ X, d.name = some X → (env.GetRawPolicy X r.world).1 = .error e →
      ∃ ret, DumpAgentPolicy env d r dir = .returned ret ∧
        ret.val = some (Errorf "failed to get agent policy: " e) ∧
        ret.run.calls = r.calls ++ [Call.GetRawPolicy X]) ∧
    ((env.ListRawPolicy r.world).1 = .error e →
      (DumpAll env d r dir).val = (0, some (Errorf "failed to get agent policy: " e)) ∧
      (DumpAll env d r dir).run.calls = r.calls ++ [Call.ListRawPolicy] ∧
      (DumpAgentPoliciesFileteredByPackage env d r packageName dir).val
        = (0, some (Errorf "failed to get agent policy: " e)) ∧
      (DumpAgentPoliciesFileteredByPackage env d r packageName dir).run.calls
        = r.calls ++ [Call.ListRawPolicy]) ∧
    (Errorf "failed to get agent policy: " e).Unwrap = some e := by
  refine ⟨?_, ?_, rfl⟩
  · intro X hX hget
    refine ⟨⟨some (Errorf "failed to get agent policy: " e), { d with policies := [] },
      ⟨(env.GetRawPolicy X r.world).2, r.calls ++ [Call.GetRawPolicy X]⟩⟩, ?_, rfl, rfl⟩
    simp [DumpAgentPolicy, getAgentPolicy, hX, hget]
  · intro hlist
    simp [DumpAll, DumpAgentPoliciesFileteredByPackage, getAllAgentPolicies,
      getAgentPoliciesFilteredByPackage, hlist]

/-- C7, at a concrete input: the lookup of an unknown policy, and a list call that fails. -/
theorem C7_remote_failure_is_returned_at_once_witness :
    (∃ ret, DumpAgentPolicy (demoEnv (.error (.external "connection refused")) none)
        ⟨some "p9", []⟩ ⟨0, []⟩ "out" = .returned ret ∧
      ret.val = some (Errorf "failed to get agent policy: "
        (.external "could not get policy; API status code = 404")) ∧
      ret.run.calls = [] ++ [Call.GetRawPolicy "p9"]) ∧
    ((DumpAll (demoEnv (.error (.external "connection refused")) none)
        ⟨some "p9", []⟩ ⟨0, []⟩ "out").val
        = (0, some (Errorf "failed to get agent policy: " (.external "connection refused"))) ∧
      (DumpAll (demoEnv (.error (.external "connection refused")) none)
        ⟨some "p9", []⟩ ⟨0, []⟩ "out").run.calls = [] ++ [Call.ListRawPolicy] ∧
      (DumpAgentPoliciesFileteredByPackage (demoEnv (.error (.external "connection refused")) none)
        ⟨some "p9", []⟩ ⟨0, []⟩ "nginx" "out").val
        = (0, some (Errorf "failed to get agent policy: " (.external "connection refused"))) ∧
      (DumpAgentPoliciesFileteredByPackage (demoEnv (.error (.external "connection refused")) none)
        ⟨some "p9", []⟩ ⟨0, []⟩ "nginx" "out").run.calls = [] ++ [Call.ListRawPolicy]) :=
  ⟨(C7_remote_failure_is_returned_at_once (demoEnv (.error (.external "connection refused")) none)
      ⟨some "p9", []⟩ ⟨0, []⟩ "nginx" "out"
      (.external "could not get policy; API status code = 404")).1 "p9" rfl rfl,
   (C7_remote_failure_is_returned_at_once (demoEnv (.error (.external "connection refused")) none)
      ⟨some "p9", []⟩ ⟨0, []⟩ "nginx" "out" (.external "connection refused")).2.1 rfl⟩

/-- C8, counterexample. The only fetched document is a JSON object with no `id` field.
Neither operation fails: `DumpAll` and the filtered export for `nginx` both return the
count 1 and no error, and both write the document, under the empty name. -/
theorem C8_counterexample_document_without_id_is_written :
    IsObjectWithoutID (demoEnv (.ok [docNoID]) none) docNoID ∧
    (DumpAll (demoEnv (.ok [docNoID]) none) (NewAgentPoliciesDumper none) ⟨0, []⟩ "out").val
      = (1, none) ∧
    (DumpAll (demoEnv (.ok [docNoID]) none) (NewAgentPoliciesDumper none) ⟨0, []⟩
      "out").run.calls
      = [Call.ListRawPolicy, Call.dumpInstalledObject "out/agent_policies" ⟨"", docNoID⟩] ∧
    (DumpAgentPoliciesFileteredByPackage (demoEnv (.ok [docNoID]) none)
      (NewAgentPoliciesDumper none) ⟨0, []⟩ "nginx" "out").val = (1, none) ∧
    (DumpAgentPoliciesFileteredByPackage (demoEnv (.ok [docNoID]) none)
      (NewAgentPoliciesDumper none) ⟨0, []⟩ "nginx" "out").run.calls
      = [Call.ListRawPolicy, Call.dumpInstalledObject "out/agent_policies" ⟨"", docNoID⟩] := by
  refine ⟨⟨_, rfl, rfl⟩, by decide, by decide, by decide, by decide⟩

/-- C8, as amended. A fetched document that is valid JSON makes `DumpAll` and
`DumpAgentPoliciesFileteredByPackage` fail with the error of `json.Unmarshal`, without a
write, when its shape does not fit the Go types: its value is neither an object nor
`null`, or a member stored into `id` is neither a string nor `null`. A JSON object with no
`id` field is not such a document: fetched alone, `DumpAll` writes it under the empty name
and returns the count 1, and when it has no field `package_policies` either the filtered
export returns the count 0 and no error. -/
theorem C8_amended_only_a_type_mismatch_is_a_parse_error (env : Env σ)
    (d : AgentPoliciesDumper) (r : Run σ) (packageName dir : String) (data : RawMessage) :
    (∀ docs, (env.ListRawPolicy r.world).1 = .ok docs → data ∈ docs →
      HasWrongShape env data →
      (∃ e1, (DumpAll env d r dir).val = (0, some (Errorf "failed to get agent policy: "
          (Errorf "failed to get Agent Policy ID: " e1)))) ∧
      (DumpAll env d r dir).run.calls = r.calls ++ [Call.ListRawPolicy] ∧
      (∃ e2, (DumpAgentPoliciesFileteredByPackage env d r packageName dir).val
          = (0, some (Errorf "failed to get agent policy: "
              (Errorf "failed to get Agent Policy ID: " e2)))) ∧
      (DumpAgentPoliciesFileteredByPackage env d r packageName dir).run.calls
          = r.calls ++ [Call.ListRawPolicy]) ∧
    ((env.ListRawPolicy r.world).1 = .ok [data] → IsObjectWithoutID env data →
      (env.dumpInstalledObject (env.Join dir AgentPoliciesDumpDir) ⟨"", data⟩
        (env.ListRawPolicy r.world).2).1 = none →
      (DumpAll env d r dir).val = (1, none) ∧
      (DumpAll env d r dir).run.calls = r.calls ++ [Call.ListRawPolicy,
        Call.dumpInstalledObject (env.Join dir AgentPoliciesDumpDir) ⟨"", data⟩]) ∧
    (∀ members, (env.ListRawPolicy r.world).1 = .ok [data] →
      env.checkValid data = .ok (.object members) → idValues members = [] →
      packagePoliciesValues members = [] →
      (DumpAgentPoliciesFileteredByPackage env d r packageName dir).val = (0, none) ∧
      (DumpAgentPoliciesFileteredByPackage env d r packageName dir).run.calls
        = r.calls ++ [Call.ListRawPolicy]) := by
  refine ⟨?_, ?_, ?_⟩
  · intro docs hlist hmem hshape
    exact dump_of_bad_document env d r packageName dir docs data hlist hmem
      (unmarshalPolicyName_wrongShape env data hshape)
      (unmarshalPolicyPackages_wrongShape env data hshape)
  · intro hlist hobj hwrite
    obtain ⟨members, hv, hid⟩ := hobj
    have hun : unmarshalPolicyName env data ⟨""⟩ = .ok ⟨""⟩ := by
      simp only [unmarshalPolicyName, hv]
      exact foldlM_storePolicyName_skip env members ⟨""⟩ hid
    simp [DumpAll, getAllAgentPolicies, hlist, getAllAgentPoliciesLoop, hun, dumpEach, hwrite]
  · intro members hlist hv hid hpp
    have hun : unmarshalPolicyPackages env data ⟨"", ⟨[], []⟩⟩ = .ok ⟨"", ⟨[], []⟩⟩ := by
      simp only [unmarshalPolicyPackages, hv]
      exact foldlM_storePolicyPackages_skip env members _ hid hpp
    simp [DumpAgentPoliciesFileteredByPackage, getAgentPoliciesFilteredByPackage, hlist,
      getAgentPoliciesFilteredByPackageLoop, hun, dumpEach, StringSliceContains,
      getPackagesUsingAgentPolicy]

/-- C8 as amended, at concrete inputs: a list with a document whose `id` is a number, and
the list of the single document without `id`. -/
theorem C8_amended_only_a_type_mismatch_is_a_parse_error_witness :
    ((∃ e1, (DumpAll (demoEnv (.ok [docSystem, docNumberID]) none)
        (NewAgentPoliciesDumper none) ⟨0, []⟩ "out").val
        = (0, some (Errorf "failed to get agent policy: "
            (Errorf "failed to get Agent Policy ID: " e1)))) ∧
      (DumpAll (demoEnv (.ok [docSystem, docNumberID]) none)
        (NewAgentPoliciesDumper none) ⟨0, []⟩ "out").run.calls = [] ++ [Call.ListRawPolicy] ∧
      (∃ e2, (DumpAgentPoliciesFileteredByPackage (demoEnv (.ok [docSystem, docNumberID]) none)
        (NewAgentPoliciesDumper none) ⟨0, []⟩ "system" "out").val
        = (0, some (Errorf "failed to get agent policy: "
            (Errorf "failed to get Agent Policy ID: " e2)))) ∧
      (DumpAgentPoliciesFileteredByPackage (demoEnv (.ok [docSystem, docNumberID]) none)
        (NewAgentPoliciesDumper none) ⟨0, []⟩ "system" "out").run.calls
        = [] ++ [Call.ListRawPolicy]) ∧
    ((DumpAll (demoEnv (.ok [docNoID]) none) (NewAgentPoliciesDumper none) ⟨0, []⟩ "out").val
      = (1, none) ∧
      (DumpAll (demoEnv (.ok [docNoID]) none) (NewAgentPoliciesDumper none) ⟨0, []⟩
        "out").run.calls = [] ++ [Call.ListRawPolicy,
          Call.dumpInstalledObject ((demoEnv (.ok [docNoID]) none).Join "out"
            AgentPoliciesDumpDir) ⟨"", docNoID⟩]) :=
  ⟨(C8_amended_only_a_type_mismatch_is_a_parse_error
      (demoEnv (.ok [docSystem, docNumberID]) none) (NewAgentPoliciesDumper none) ⟨0, []⟩
      "system" "out" docNumberID).1 [docSystem, docNumberID] rfl (by decide)
      ⟨_, rfl, Or.inr ⟨_, rfl, JSON.number "7", by simp [idValues, nameMatches], rfl⟩⟩,
   (C8_amended_only_a_type_mismatch_is_a_parse_error (demoEnv (.ok [docNoID]) none)
      (NewAgentPoliciesDumper none) ⟨0, []⟩ "nginx" "out" docNoID).2.1 rfl ⟨_, rfl, rfl⟩ rfl⟩

/-- C9. Every call of the write routine made during `DumpAgentPolicy`, `DumpAll` or
`DumpAgentPoliciesFileteredByPackage` with the base directory `dir` receives the same
directory, `filepath.Join(dir, AgentPoliciesDumpDir)`, where `AgentPoliciesDumpDir` is
"agent_policies": the calls that the operation appends to the log are remote calls or
calls of the write routine into that directory, whatever the policies, the package and
the position in the loop. -/
theorem C9_every_write_goes_into_agent_policies (env : Env σ) (d : AgentPoliciesDumper)
    (r : Run σ) (packageName dir : String) :
    AgentPoliciesDumpDir = "agent_policies" ∧
    (∀ ret, DumpAgentPolicy env d r dir = .returned ret →
      ∃ new, ret.run.calls = r.calls ++ new ∧
        ∀ c ∈ new, Call.writesInto (env.Join dir AgentPoliciesDumpDir) c) ∧
    (∃ new, (DumpAll env d r dir).run.calls = r.calls ++ new ∧
      ∀ c ∈ new, Call.writesInto (env.Join dir AgentPoliciesDumpDir) c) ∧
    (∃ new, (DumpAgentPoliciesFileteredByPackage env d r packageName dir).run.calls
        = r.calls ++ new ∧
      ∀ c ∈ new, Call.writesInto (env.Join dir AgentPoliciesDumpDir) c) := by
  refine ⟨rfl, ?_, ?_, ?_⟩
  · intro ret h
    cases hn : d.name with
    | none => simp [DumpAgentPolicy, getAgentPolicy, hn] at h
    | some X =>
      cases hg : (env.GetRawPolicy X r.world).1 with
      | error e =>
        simp [DumpAgentPolicy, getAgentPolicy, hn, hg] at h
        subst h
        exact ⟨[Call.GetRawPolicy X], rfl, by simp [Call.writesInto]⟩
      | ok doc =>
        simp only [DumpAgentPolicy, getAgentPolicy, policiesAt0, hn, hg, List.length_nil,
          if_true, List.nil_append] at h
        refine ⟨[Call.GetRawPolicy X,
          Call.dumpInstalledObject (env.Join dir AgentPoliciesDumpDir) ⟨X, doc⟩], ?_,
          by simp [Call.writesInto]⟩
        split at h <;> (cases h; simp)
  · rw [DumpAll_eq]
    obtain ⟨new, hnew, hcalls⟩ := counting_tail_calls env (env.Join dir AgentPoliciesDumpDir)
      ⟨(env.ListRawPolicy r.world).2, r.calls ++ [Call.ListRawPolicy]⟩
      (getAllAgentPolicies env ⟨d.name, []⟩ r).val (getAllAgentPolicies env ⟨d.name, []⟩ r).d
    refine ⟨Call.ListRawPolicy :: new, ?_, ?_⟩
    · rw [hcalls]; simp
    · intro c hc
      rcases List.mem_cons.mp hc with rfl | hc
      · trivial
      · exact hnew c hc
  · rw [DumpAgentPoliciesFileteredByPackage_eq]
    obtain ⟨new, hnew, hcalls⟩ := counting_tail_calls env (env.Join dir AgentPoliciesDumpDir)
      ⟨(env.ListRawPolicy r.world).2, r.calls ++ [Call.ListRawPolicy]⟩
      (getAgentPoliciesFilteredByPackage env ⟨d.name, []⟩ r packageName).val
      (getAgentPoliciesFilteredByPackage env ⟨d.name, []⟩ r packageName).d
    refine ⟨Call.ListRawPolicy :: new, ?_, ?_⟩
    · rw [hcalls]; simp
    · intro c hc
      rcases List.mem_cons.mp hc with rfl | hc
      · trivial
      · exact hnew c hc

/-- C9, at a concrete input: the export of the policy `p1` into the directory `out`. -/
theorem C9_every_write_goes_into_agent_policies_witness :
    DumpAgentPolicy (demoEnv (.ok []) none) ⟨some "p1", []⟩ ⟨0, []⟩ "out"
      = .returned ⟨none, ⟨some "p1", [⟨"p1", docSystem⟩]⟩,
          ⟨1, [Call.GetRawPolicy "p1",
            Call.dumpInstalledObject "out/agent_policies" ⟨"p1", docSystem⟩]⟩⟩ ∧
    ∃ new, [Call.GetRawPolicy "p1",
          Call.dumpInstalledObject "out/agent_policies" ⟨"p1", docSystem⟩] = [] ++ new ∧
      ∀ c ∈ new, Call.writesInto "out/agent_policies" c :=
  ⟨rfl, (C9_every_write_goes_into_agent_policies (demoEnv (.ok []) none) ⟨some "p1", []⟩
    ⟨0, []⟩ "nginx" "out").2.1 _ rfl⟩

/-- C10. A dumper made by `NewAgentPoliciesDumper` with a target name keeps that name,
and with it `getAgentPolicy` and `DumpAgentPolicy` do not panic: the name is not nil where
it is dereferenced and the cache is not empty where its element 0 is taken. Whenever
`getAgentPolicy` returns a policy, the cache it leaves is not empty and the policy is its
element 0; entered from `DumpAgentPolicy`, that is with an empty cache, it leaves a cache
of exactly one element. The name is needed: a dumper made without a name has a nil name,
and with a nil name `DumpAgentPolicy` panics, before any call. -/
theorem C10_DumpAgentPolicy_panics_only_on_nil_name (env : Env σ) (cache : List AgentPolicy)
    (r : Run σ) (dir : String) :
    (∀ X, NewAgentPoliciesDumper (some X) = ⟨some X, []⟩ ∧
      getAgentPolicy env ⟨some X, cache⟩ r ≠ .panicked ∧
      DumpAgentPolicy env ⟨some X, cache⟩ r dir ≠ .panicked) ∧
    (∀ name ret p, getAgentPolicy env ⟨name, cache⟩ r = .returned ret → ret.val = .ok p →
      0 < ret.d.policies.length ∧ ret.d.policies[0]? = some p) ∧
    (∀ name ret p, getAgentPolicy env ⟨name, []⟩ r = .returned ret → ret.val = .ok p →
      ret.d.policies = [p]) ∧
    NewAgentPoliciesDumper none = ⟨none, []⟩ ∧
    DumpAgentPolicy env ⟨none, cache⟩ r dir = .panicked := by
  refine ⟨?_, ?_, ?_, rfl, ?_⟩
  · intro X
    refine ⟨rfl, ?_, ?_⟩
    · cases cache with
      | nil =>
        cases h : (env.GetRawPolicy X r.world).1 <;>
          simp [getAgentPolicy, policiesAt0, h]
      | cons c cs => simp [getAgentPolicy, policiesAt0]
    · cases h : (env.GetRawPolicy X r.world).1 with
      | error e => simp [DumpAgentPolicy, getAgentPolicy, h]
      | ok doc =>
        simp only [DumpAgentPolicy, getAgentPolicy, policiesAt0, h, List.length_nil, if_true,
          List.nil_append]
        split <;> simp
  · intro name ret p h hval
    cases cache with
    | nil =>
      cases name with
      | none => simp [getAgentPolicy] at h
      | some X =>
        cases hg : (env.GetRawPolicy X r.world).1 with
        | error e =>
          simp [getAgentPolicy, hg] at h
          subst h; simp at hval
        | ok doc =>
          simp [getAgentPolicy, policiesAt0, hg] at h
          subst h; simp at hval; subst hval; simp
    | cons c cs =>
      simp [getAgentPolicy, policiesAt0] at h
      subst h; simp at hval; subst hval; simp
  · intro name ret p h hval
    cases name with
    | none => simp [getAgentPolicy] at h
    | some X =>
      cases hg : (env.GetRawPolicy X r.world).1 with
      | error e =>
        simp [getAgentPolicy, hg] at h
        subst h; simp at hval
      | ok doc =>
        simp [getAgentPolicy, policiesAt0, hg] at h
        subst h; simp at hval; subst hval; simp
  · simp [DumpAgentPolicy, getAgentPolicy]

/-- C10, at a concrete input: the lookup of the policy `p1` from an empty cache returns
the policy and leaves it as the only element of the cache. -/
theorem C10_DumpAgentPolicy_panics_only_on_nil_name_witness :
    getAgentPolicy (demoEnv (.ok []) none) ⟨some "p1", []⟩ ⟨0, []⟩
      = .returned ⟨.ok ⟨"p1", docSystem⟩, ⟨some "p1", [⟨"p1", docSystem⟩]⟩,
          ⟨0, [Call.GetRawPolicy "p1"]⟩⟩ ∧
    (0 < [(⟨"p1", docSystem⟩ : AgentPolicy)].length ∧
      [(⟨"p1", docSystem⟩ : AgentPolicy)][0]? = some ⟨"p1", docSystem⟩) ∧
    [(⟨"p1", docSystem⟩ : AgentPolicy)] = [⟨"p1", docSystem⟩] :=
  ⟨rfl,
   (C10_DumpAgentPolicy_panics_only_on_nil_name (demoEnv (.ok []) none) [] ⟨0, []⟩ "out").2.1
      (some "p1") ⟨.ok ⟨"p1", docSystem⟩, ⟨some "p1", [⟨"p1", docSystem⟩]⟩,
        ⟨0, [Call.GetRawPolicy "p1"]⟩⟩ ⟨"p1", docSystem⟩ rfl rfl,
   (C10_DumpAgentPolicy_panics_only_on_nil_name (demoEnv (.ok []) none) [] ⟨0, []⟩ "out").2.2.1
      (some "p1") ⟨.ok ⟨"p1", docSystem⟩, ⟨some "p1", [⟨"p1", docSystem⟩]⟩,
        ⟨0, [Call.GetRawPolicy "p1"]⟩⟩ ⟨"p1", docSystem⟩ rfl rfl⟩

end Theorems

end Dump
